import Mathlib

/-!
Verification of the nostrdizer CoinJoin coordination library against its
natural-language specification.  Each section shallowly embeds the Rust
functions named by the claims; theorems at the end settle the claims.

Modelling conventions:
* machine integers are `ℕ`/`ℤ` with explicit wrap/checks where the source has
  them; Rust `Result` is `Except Err`; a Rust panic (`unwrap`, `try_into`,
  out-of-bounds index) is the distinguished value `Err.panicked`;
* the secp256k1 curve group (an external library that podle.rs treats as an
  abstract group) is modelled generic-group style: a point is its coefficient
  vector over the generator `G` and the 256 NUMS basepoints, with scalar
  arithmetic in `ZMod nOrder`;
* SHA-256 inside podle.rs's commitment scheme is a black box, so
  `generate_podle`/`verify_podle` are parametrised by an arbitrary digest
  function `H : List ℕ → ℕ` (a digest is read as the integer of its 32
  big-endian bytes); the NUMS-derivation claim, by contrast, is settled with a
  full executable SHA-256 defined below.
-/

namespace Nostrdizer

/-- Error taxonomy, from errors.rs (plus `panicked` for Rust panics). -/
inductive Err : Type
  | secp
  | podleCommitment
  | podleVerifyFailed
  | getNum
  | insufficientFunds
  | feesTooHigh
  | notEnoughMakers
  | noMatchingUtxo
  | feeEstimation
  | badInput
  | rpc
  | parseAmount
  | takerFailedToSendTransaction
  | combineConflict
  | panicked
  deriving DecidableEq, Repr

/-- The secp256k1 group order: the literal returned by `fn n()` in podle.rs. -/
def nOrder : ℕ :=
  115792089237316195423570985008687907852837564279074904382605163141518161494337

/-- Scalars: all big-integer arithmetic in podle.rs is reduced mod `nOrder`. -/
abbrev Scalar := ZMod nOrder

/-- Generic-group model of secp256k1 points as used by podle.rs: coefficient
vectors over the 257 generators (index 0 is the standard generator `G`,
index `i+1` is NUMS point `i`).  Models the external secp256k1 library. -/
abbrev Point := Fin 257 → Scalar

/-- The zero vector (the point at infinity, which `PublicKey` never holds). -/
def zeroPt : Point := fun _ => 0

/-- Basis vector. -/
def basis (i : Fin 257) : Point := fun j => if j = i then 1 else 0

/-- The standard generator `G`. -/
def pG : Point := basis 0

/-- The NUMS basepoint of index `i` (PRECOMPUTEDNUMS[i] / get_nums(i); the two
agree in the source, established computationally by the C6 theorem). -/
def nums (i : Fin 256) : Point := basis ⟨i.val + 1, by omega⟩

/-- Scalar multiple of a point (`k·P`). -/
def smul (c : ℕ) (P : Point) : Point := fun j => (c : Scalar) * P j

/-- Pointwise sum of two coefficient vectors. -/
def padd (P Q : Point) : Point := fun j => P j + Q j

/-- `PublicKey::mul_tweak`: secp256k1_ec_pubkey_tweak_mul fails exactly when
the tweak is zero (mod the group order). -/
def mulTweak (P : Point) (t : ℕ) : Except Err Point :=
  if t % nOrder = 0 then .error .secp else .ok (smul t P)

/-- `PublicKey::combine`: secp256k1 point addition, failing exactly when the
sum is the point at infinity. -/
def pcombine (P Q : Point) : Except Err Point :=
  if padd P Q = zeroPt then .error .secp else .ok (padd P Q)

/-- `PublicKey::serialize` modelled as the (injective) coefficient listing of
the point; digest functions consume these lists. -/
def serializeP (P : Point) : List ℕ := List.ofFn fun j => (P j).val

/-- Fuel-driven byte counter (the fuel argument only makes the recursion
structural; `byteLen` passes enough). -/
def byteLenF : ℕ → ℕ → ℕ
  | 0, _ => 0
  | fuel + 1, x => if x = 0 then 0 else byteLenF fuel (x / 256) + 1

/-- Byte count of podle.rs's `encode` (minimal little-endian, empty for 0);
also the minimal big-endian length used below. -/
def byteLen (x : ℕ) : ℕ := byteLenF x x

/-- Byte count of num_bigint's `to_bytes_be`, which encodes 0 as one byte. -/
def toBytesBeLen (x : ℕ) : ℕ := max 1 (byteLen x)

/-- podle.rs's `modulo(-e, n)`: Rust `%` keeps the dividend's sign, so
`((-e % n) + n) % n = (n - e % n) % n`. -/
def negMod (e m : ℕ) : ℕ := (m - e % m) % m

/-- AuthCommitment (types.rs).  `sig` is carried as the integer whose minimal
big-endian encoding is the source's `Vec<u8>`; `commit`/`e` as digest values. -/
structure AuthCommitment : Type where
  p : Point
  p2 : Point
  commit : ℕ
  sig : ℕ
  e : ℕ

/-- `generate_podle` (podle.rs:69-119) for a private key of value `sk` and
generation randomness `k` (the source draws `k = Scalar::random()`).
`H` is the SHA-256 model.  Step by step:
`P = sk·G`; `KG = k·G` (panics for `k = 0`, `SecretKey::from_slice` unwrap);
`J = PRECOMPUTEDNUMS[index]`; `KJ = k·J`; `P2 = sk·J` (unwrap);
`commit = H(P2)`; `e = H(KG‖KJ‖P‖P2)`; `sig = (k + sk·e) mod n`. -/
def generate_podle (H : List ℕ → ℕ) (index : Fin 256) (sk k : ℕ) :
    Except Err AuthCommitment := do
  let pubKey := smul sk pG
  if k % nOrder = 0 then .error .panicked else do
  let kg := smul k pG
  let j := nums index
  let kj ← mulTweak j k
  if sk % nOrder = 0 then .error .panicked else do
  let p2 := smul sk j
  let commitment := H (serializeP p2)
  let e := H (serializeP kg ++ serializeP kj ++ serializeP pubKey ++ serializeP p2)
  let sg := (k + sk * e) % nOrder
  .ok { p := pubKey, p2 := p2, commit := commitment, sig := sg, e := e }

/-- The index list `0..=index` that `verify_podle`'s loop walks. -/
def idxList (index : Fin 256) : List (Fin 256) :=
  (List.finRange (index.val + 1)).map
    fun j => ⟨j.val, lt_of_lt_of_le j.isLt (Nat.succ_le_of_lt index.isLt)⟩

/-- The `for i in 0..=index` loop of `verify_podle` (podle.rs:156-196): for
each NUMS index reconstruct `KG = sig·G − e·P`, `KJ = sig·J_i − e·P2`, hash,
and accept on the first match with `e`. -/
def verifyLoop (H : List ℕ → ℕ) (p p2 sG : Point) (sg e : ℕ) :
    List (Fin 256) → Except Err Unit
  | [] => .error .podleVerifyFailed
  | i :: rest => do
    let j := nums i
    let sJ ← mulTweak j sg
    let eNeg := negMod e nOrder
    if byteLen eNeg ≠ 32 then .error .panicked else do
    let ePNeg ← mulTweak p eNeg
    let eP2Neg ← mulTweak p2 eNeg
    let kG ← pcombine sG ePNeg
    let kJ ← pcombine sJ eP2Neg
    let eCheck := H (serializeP kG ++ serializeP kJ ++ serializeP p ++ serializeP p2)
    if eCheck = e then .ok () else verifyLoop H p p2 sG sg e rest

/-- `verify_podle` (podle.rs:132-198).  The commit guard rejects only when
BOTH `H(P2) ≠ fill_commitment` AND `commit ≠ fill_commitment` (the source
uses `&&`); then `SecretKey::from_slice(&sig)` demands exactly 32 bytes and a
value in `[1, n)`; then the loop over indices `0..=index`. -/
def verify_podle (H : List ℕ → ℕ) (index : Fin 256) (ac : AuthCommitment)
    (fill : ℕ) : Except Err Unit :=
  if H (serializeP ac.p2) ≠ fill ∧ ac.commit ≠ fill then .error .podleCommitment
  else if toBytesBeLen ac.sig ≠ 32 ∨ ac.sig = 0 ∨ nOrder ≤ ac.sig then .error .secp
  else
    let sG := smul ac.sig pG
    verifyLoop H ac.p ac.p2 sG ac.sig ac.e (idxList index)


/-! ## SHA-256 and the NUMS table (podle.rs get_nums / PRECOMPUTEDNUMS)

A full executable SHA-256 over byte lists (bytes are `ℕ` kept below 256),
used to settle the NUMS-derivation claim by computation. -/

/-- Truncation to a 32-bit word. -/
def u32 (a : ℕ) : ℕ := a % 4294967296

/-- 32-bit right rotation. -/
def rotr (k n : ℕ) : ℕ := Nat.lor (n >>> k) (u32 (n <<< (32 - k)))

def bigSigma0 (n : ℕ) : ℕ := Nat.xor (Nat.xor (rotr 2 n) (rotr 13 n)) (rotr 22 n)

def bigSigma1 (n : ℕ) : ℕ := Nat.xor (Nat.xor (rotr 6 n) (rotr 11 n)) (rotr 25 n)

def smallSigma0 (n : ℕ) : ℕ := Nat.xor (Nat.xor (rotr 7 n) (rotr 18 n)) (n >>> 3)

def smallSigma1 (n : ℕ) : ℕ := Nat.xor (Nat.xor (rotr 17 n) (rotr 19 n)) (n >>> 10)

def chFn (e f g : ℕ) : ℕ := Nat.xor (Nat.land e f) (Nat.land (Nat.xor e 4294967295) g)

def majFn (a b c : ℕ) : ℕ := Nat.xor (Nat.xor (Nat.land a b) (Nat.land a c)) (Nat.land b c)

/-- The SHA-256 round constants of FIPS 180-4 (the fractional parts of the
cube roots of the first 64 primes), written in decimal. -/
def kTable : List ℕ :=
  [1116352408, 1899447441, 3049323471, 3921009573, 961987163, 1508970993,
   2453635748, 2870763221, 3624381080, 310598401, 607225278, 1426881987,
   1925078388, 2162078206, 2614888103, 3248222580, 3835390401, 4022224774,
   264347078, 604807628, 770255983, 1249150122, 1555081692, 1996064986,
   2554220882, 2821834349, 2952996808, 3210313671, 3336571891, 3584528711,
   113926993, 338241895, 666307205, 773529912, 1294757372, 1396182291,
   1695183700, 1986661051, 2177026350, 2456956037, 2730485921, 2820302411,
   3259730800, 3345764771, 3516065817, 3600352804, 4094571909, 275423344,
   430227734, 506948616, 659060556, 883997877, 958139571, 1322822218,
   1537002063, 1747873779, 1955562222, 2024104815, 2227730452, 2361852424,
   2428436474, 2756734187, 3204031479, 3329325298]

/-- Big-endian 4-byte groups to 32-bit words. -/
def bytesToWords : List ℕ → List ℕ
  | a :: b :: c :: d :: rest => (((a * 256 + b) * 256 + c) * 256 + d) :: bytesToWords rest
  | _ => []

/-- The 16-word sliding window of the SHA-256 message schedule. -/
structure W16 : Type where
  w0 : ℕ
  w1 : ℕ
  w2 : ℕ
  w3 : ℕ
  w4 : ℕ
  w5 : ℕ
  w6 : ℕ
  w7 : ℕ
  w8 : ℕ
  w9 : ℕ
  w10 : ℕ
  w11 : ℕ
  w12 : ℕ
  w13 : ℕ
  w14 : ℕ
  w15 : ℕ

/-- Message-schedule recursion carrying the last 16 words (`w0` is `w[t-16]`,
`w15` is `w[t-1]`), emitting the new words newest-first into `acc`. -/
def schedLoop : ℕ → List ℕ → W16 → List ℕ
  | 0, acc, _ => acc
  | fuel + 1, acc, ⟨w0, w1, w2, w3, w4, w5, w6, w7, w8, w9, w10, w11, w12, w13, w14, w15⟩ =>
    let wt := u32 (smallSigma1 w14 + w9 + smallSigma0 w1 + w0)
    schedLoop fuel (wt :: acc)
      ⟨w1, w2, w3, w4, w5, w6, w7, w8, w9, w10, w11, w12, w13, w14, w15, wt⟩

/-- Words 16..63 of the message schedule of one block. -/
def schedule : List ℕ → List ℕ
  | [w0, w1, w2, w3, w4, w5, w6, w7, w8, w9, w10, w11, w12, w13, w14, w15] =>
    (schedLoop 48 [] ⟨w0, w1, w2, w3, w4, w5, w6, w7, w8, w9, w10, w11, w12, w13, w14, w15⟩).reverse
  | _ => []

/-- The 64-round compression loop over paired round constants and schedule. -/
def compressLoop : List ℕ → List ℕ → ℕ → ℕ → ℕ → ℕ → ℕ → ℕ → ℕ → ℕ → List ℕ
  | kt :: ks, wt :: ws, a, b, c, d, e, f, g, h =>
    let t1 := u32 (h + bigSigma1 e + chFn e f g + kt + wt)
    let t2 := u32 (bigSigma0 a + majFn a b c)
    compressLoop ks ws (u32 (t1 + t2)) a b c (u32 (d + t1)) e f g
  | _, _, a, b, c, d, e, f, g, h => [a, b, c, d, e, f, g, h]

/-- One SHA-256 block step on the 8-word chaining state. -/
def processBlock (st : List ℕ) (block : List ℕ) : List ℕ :=
  match st with
  | [h0, h1, h2, h3, h4, h5, h6, h7] =>
    match compressLoop kTable (bytesToWords block ++ schedule (bytesToWords block))
        h0 h1 h2 h3 h4 h5 h6 h7 with
    | [a, b, c, d, e, f, g, h] =>
      [u32 (h0 + a), u32 (h1 + b), u32 (h2 + c), u32 (h3 + d),
       u32 (h4 + e), u32 (h5 + f), u32 (h6 + g), u32 (h7 + h)]
    | _ => []
  | _ => []

/-- Split into 64-byte blocks. -/
def chunksF : ℕ → List ℕ → List (List ℕ)
  | 0, _ => []
  | _ + 1, [] => []
  | fuel + 1, l => l.take 64 :: chunksF fuel (l.drop 64)

/-- 8-byte big-endian length field. -/
def lenBytes64 (x : ℕ) : List ℕ :=
  [(x >>> 56) % 256, (x >>> 48) % 256, (x >>> 40) % 256, (x >>> 32) % 256,
   (x >>> 24) % 256, (x >>> 16) % 256, (x >>> 8) % 256, x % 256]

/-- SHA-256 padding. -/
def padMsg (msg : List ℕ) : List ℕ :=
  msg ++ 128 :: List.replicate ((64 - (msg.length + 9) % 64) % 64) 0 ++
    lenBytes64 (8 * msg.length)

/-- The SHA-256 initial state (fractional parts of the square roots of the
first 8 primes), in decimal. -/
def shaInit : List ℕ :=
  [1779033703, 3144134277, 1013904242, 2773480762,
   1359893119, 2600822924, 528734635, 1541459225]

/-- The final 8 words as one 256-bit big-endian integer (the digest read the
way podle.rs's `decode` reads byte strings). -/
def digestOfWords : List ℕ → ℕ
  | [h0, h1, h2, h3, h4, h5, h6, h7] =>
    ((((((h0 <<< 32 ||| h1) <<< 32 ||| h2) <<< 32 ||| h3) <<< 32 ||| h4) <<< 32 |||
      h5) <<< 32 ||| h6) <<< 32 ||| h7
  | _ => 0

/-- SHA-256 of a byte list, as the 256-bit big-endian integer. -/
def sha256Nat (msg : List ℕ) : ℕ :=
  let padded := padMsg msg
  digestOfWords ((chunksF padded.length padded).foldl processBlock shaInit)

/-- The secp256k1 base-field modulus (models the external library's field). -/
def pField : ℕ :=
  115792089237316195423570985008687907853269984665640564039457584007908834671663

/-- Fuel-driven modular exponentiation by squaring (enough fuel is passed for
256-bit exponents). -/
def powModF : ℕ → ℕ → ℕ → ℕ → ℕ
  | 0, _, _, _ => 1
  | fuel + 1, b, e, m =>
    if e = 0 then 1 % m
    else
      let r := powModF fuel b (e / 2) m
      if e % 2 = 0 then r * r % m else r * r % m * b % m

/-- Euler's criterion: `a` is a square mod `pField` (models the external
secp256k1 point-decompression solvability test for `y² = x³ + 7`). -/
def isSquareModP (a : ℕ) : Bool :=
  a % pField = 0 || powModF 256 (a % pField) ((pField - 1) / 2) pField = 1

/-- `PublicKey::from_slice` on a `0x02`-prefixed candidate succeeds iff the
x-coordinate is a field element whose `x³ + 7` is a square. -/
def validX (x : ℕ) : Bool :=
  x < pField && isSquareModP ((x * x % pField * x + 7) % pField)

/-- The compressed serialization of the secp256k1 generator (get_g(true);
a fixed constant of the external library). -/
def gBytesCompressed : List ℕ :=
  [0x02, 0x79, 0xbe, 0x66, 0x7e, 0xf9, 0xdc, 0xbb, 0xac, 0x55, 0xa0, 0x62, 0x95, 0xce, 0x87, 0x0b,
   0x07, 0x02, 0x9b, 0xfc, 0xdb, 0x2d, 0xce, 0x28, 0xd9, 0x59, 0xf2, 0x81, 0x5b, 0x16, 0xf8, 0x17,
   0x98]

/-- The uncompressed serialization of the generator (get_g(false)). -/
def gBytesUncompressed : List ℕ :=
  [0x04, 0x79, 0xbe, 0x66, 0x7e, 0xf9, 0xdc, 0xbb, 0xac, 0x55, 0xa0, 0x62, 0x95, 0xce, 0x87, 0x0b,
   0x07, 0x02, 0x9b, 0xfc, 0xdb, 0x2d, 0xce, 0x28, 0xd9, 0x59, 0xf2, 0x81, 0x5b, 0x16, 0xf8, 0x17,
   0x98, 0x48, 0x3a, 0xda, 0x77, 0x26, 0xa3, 0xc4, 0x65, 0x5d, 0xa4, 0xfb, 0xfc, 0x0e, 0x11, 0x08,
   0xa8, 0xfd, 0x17, 0xb4, 0x48, 0xa6, 0x85, 0x54, 0x19, 0x9c, 0x47, 0xd0, 0x8f, 0xfb, 0x10, 0xd4,
   0xb8]

/-- The `for counter in 0..255` search of get_nums (podle.rs:218-228): hash
`seed ++ [counter]`, prepend `0x02`, return the first candidate accepted by
`PublicKey::from_slice`, as the 33-byte integer `0x02·2^256 + x`. -/
def numsTry (seed : List ℕ) : ℕ → ℕ → Option ℕ
  | 0, _ => none
  | fuel + 1, counter =>
    let x := sha256Nat (seed ++ [counter])
    if validX x then some (2 * 2 ^ 256 + x) else numsTry seed fuel (counter + 1)

/-- `get_nums` (podle.rs:214-231): try the compressed generator serialization
then the uncompressed one as seed prefix, with counters `0..=254` each. -/
def get_nums (index : ℕ) : Except Err ℕ :=
  match numsTry (gBytesCompressed ++ [index]) 255 0 with
  | some x => .ok x
  | none =>
    match numsTry (gBytesUncompressed ++ [index]) 255 0 with
    | some x => .ok x
    | none => .error .getNum

/-- PRECOMPUTEDNUMS (podle.rs:233-490): the 256 compressed points, each as
the integer of its 33-byte hex string. -/
def PRECOMPUTEDNUMS : List ℕ :=
  [0x0296f47ec8e6d6a9c3379c2ce983a6752bcfa88d46f2a6ffe0dd12c9ae76d01a1f,
   0x023f9976b86d3f1426638da600348d96dc1f1eb0bd5614cc50db9e9a067c0464a2,
   0x023745b000f6db094a794d9ee08637d714393cd009f86087438ac3804e929bfe89,
   0x023346660dcb1f8d56e44d23f93c3ad79761cdd5f4972a638e9e15517832f6a165,
   0x02ec91c86964dcbb077c8193156f3cfa91476d5adfcfcf64913a4b082c75d5bca7,
   0x02bbc5c4393395a38446e2bd4d638b7bfd864afb5ffaf4bed4caf797df0e657434,
   0x02967efd39dc59e6f060bf3bd0080e8ecf4a22b9d1754924572b3e51ce2cde2096,
   0x02cfce8a7f9b8a1735c4d827cd84e3f2a444de1d1f7ed419d23c88d72de341357f,
   0x0206d6d6b1d88936bb6013ae835716f554d864954ea336e3e0141fefb2175b82f9,
   0x021b739f21b981c2dcbaf9af4d89223a282939a92aee079e94a46c273759e5b42e,
   0x025d72106845e03c3747f1416e539c5aa0712d858e7762807fdc4f3757fd980631,
   0x02e7d4defb5d287734a0f96c2b390aa14f5f38e80c5a5e592e4ce10d55a5f5246b,
   0x023c1bf301bcfa0f097f1a3931c68b4fd39b77a28cc7b61b2b1e0b7ca6d332493c,
   0x0283ac2cdd6b362c90665802c264ee8e6342318070943717faee62ef9addeff3e9,
   0x02cb9f6164cd2acdf071caef9deab870fc3d390a09b37ba7af8e91139b817ce807,
   0x02f0a3a3e22c5b04b6fe97430d68f33861c3e9be412220dc2a24485ea5d55d94db,
   0x02860ca3475757d90d999e6553e62c07fce5a6598d060cceeead08c8689b928095,
   0x0246c8eabc38ce6a93868369d5900d84f36b2407eecb81286a25eb22684355b41d,
   0x026aa6379d74e6cd6c721aef82a34341d1d15f0c96600566ad3fa8e9c43cbb5505,
   0x02fdeacb3b4d15e0aae1a1d257b4861bcc9addb5dc3780a13eb982eb656f73d741,
   0x021a83ecfaeb2c057f66a6b0d4a42bff3fe5fda11fe2eea9734f45f255444cddc0,
   0x02d93580f3e0c2ec8ea461492415cc6a4be00c50969e2c32a2135e7d04f112309a,
   0x0292c57be6c3e6ba8b44cf5e619529cf75e9c6b795ddecd383fb78f9059812cb3f,
   0x02480f099771d0034d657f6b00cd17c7315b033b19bed9ca95897bc8189928dd47,
   0x02ac0701cdc6f96c63752c01dc8400eab19431dfa15f85a7314b1e9a3df69a4a66,
   0x026a304ceb69e37d655c1ef100d7ad23192867151983ab0d168af96afe7f1997f6,
   0x023b9ff8e4a853b29ecae1e8312fae53863e86b8f8cb3155f31f7325ffb2baf02c,
   0x021894ce66d61c33e439f38a36d92c0e45bf28dbc7e30bfb4d7135b87fc8e890e1,
   0x02d9e7680e583cf904774d4c19f36cb3d238b6c770e1e7db03f444dc8b15b29687,
   0x024350c7ff5b2bf2c58e3b17a792716d0e76cff7ad537375d1abc6e249466b25a3,
   0x02c6577e1cdcbcfadb0ae037d01fbf6d74786eecdb9d1ee277d9ba69b969728cfe,
   0x029f395b4c7b20bcb6120b57bee6d2f7353cd0aa9fe246176064068c1bd9b714d1,
   0x02d180786087720b827bf04ae800547102470a1e43de314203e90228c586b481a1,
   0x023548173a673965c18d994028bc6d5f5df1f60dccf9368b0eae34f8cff3106943,
   0x02118124c53b86fdade932c4304ad347a19ce0af79a9ab885d7d3a6358a396e360,
   0x02930bcdee5887fa5a258335d6948017e6d7f2665b32dcc76a84d5ca7cd604d89b,
   0x0267e79a47058758a8ee240afd941e0ae8b4f175f29a3cf195ad6ff0e6d02955b1,
   0x027e53d9fb04f1bb69324245306d26aa60172fd13d8fe27809b093222226914de6,
   0x02ef09fbdcd22e1be4f0d4b2d13a141051b18009d7001f6828c6a40b145c9df23e,
   0x028742fd08c60ba13e78913581db19af2f708c7ec53364589f6cbcf9d1c8b5105f,
   0x020ce14308d2f516bf4f9e0944fb104907adef8f4c319bfcc3afab73e874a9ce4a,
   0x027635f125f05a2548201f74c4bbdcbe89561204117bd8b82dfae29c85a576a58e,
   0x02fe878f3ae59747ee8e9c34876b86851d5396124e1411f86fe5c58f08f413a549,
   0x02f2a6af33bd08ab41a010d785694e9682fa1cc65733f30a53c40541d1c1bfb660,
   0x02cbe9d18b6d5fc9993ef862892e5b2b1ea5d2710a4f208672c0f7c36a08bb5686,
   0x023fb079b25c0a8241465fb55802f22ebb354e6da81f7dabfe214ddbd9d3dfcd5a,
   0x021a5b234b9a10fc5f08ed9c1a136a250e92156adc12109a97dd7467276d6848a8,
   0x0240fbe9363d50585da40aef95f311fc2795550e787f62421cd9b6e2f719bb9547,
   0x02a245fbbc00f1d6feb72a9e1d3fd0033522839d33440aea64f52e8bccee616be8,
   0x02fd1e94bb23a4306de64064841165e3db497ae5b246dabff738eb3e6ea51685a7,
   0x0298362705914c839e45505369e54faefbb3aaebb4c486b4d6e59ca03304f3552c,
   0x021b8109a23b858114d287273620dd920029d84b90f63af273c1c78492b1a70105,
   0x028df6ce4fec30229cddb86c62606cff80e95cb8277028277f3dcc8ac9f98eef9d,
   0x02ed02925d806df4ac764769d11743093708808157fb2933eb19af5399dcfd500c,
   0x02ce88da0e81988bd8f5d63ad06898a355f7dc7f46bb08cf5f1e9bc5c3752ad13c,
   0x02f4868cc8285cd8d74d4213d18d53d5f410d50223818f1be6fe8090904e03743d,
   0x02770cecdf18aa2115b6e5c4295468f2e92a53068dc4295d0e5d0890b71d1a2fcc,
   0x02b5d4dce8932de37c6ef13a7f063f164dfd07f7399e8e815e22b5af420608fd2a,
   0x0284ad07924dbac50a72455aec3ddba50b1ed71e678ba935bb5d95c8a8232b1353,
   0x02cb8c916a6f9bc39c8825f5b0378bb1b0a0679e191843aa4db2195b81f14c87e0,
   0x0235aa30ec3df8dd193a132dbaf3b351af879c59504ed8b7b5ad5f1f1ea712854f,
   0x02df91206e955cefe7bcda4555fc6ad761b0e98d464629f098d4483306851704e9,
   0x02ed4f1fccd47e66a8d74e58b4f6e31b5172b628fc0dacdb408128c914eb80f506,
   0x0263991bb62aaca78a128917f5c4e15183f98aefddf04070c5ca537186f1c1a97a,
   0x02ffe2b017882d57db27864446ad7b21d3855ae64bddf74d46e3a611bf903580be,
   0x02d647aba2c01eecd0fac7e82580dd8b92d66db7341d1b65a5e4b01234f1fbb2cd,
   0x023134ff85401dba9aff426d3f3ba292ea59684b8c48ea0b495660797a839246a6,
   0x02827880fe0410c9ea84f75a629f8f8e6eed1f26528af421cf23b8ecf93b6b4b7b,
   0x02859b3f9f1f5ba6aa0787f8d3f3f2f21b4932c40bc36b6669383e3bbd19654a5f,
   0x02a7d204dfc3eed44abd0419202e280f6772efd5acf9fd34331b8f47c81c6dab19,
   0x02e15d11b443a9340ac31a8c5774ce34cd347834470c8d68c959828fae3a7eb0c6,
   0x029931f65e46627d60519bfd08bd8a1bb3d8d2921f7f8c9ef31f4bfcdd8028ead2,
   0x02e5415ba78743d736018f19757ee0e1ca5d4a4fb1d0464cd3eea8d89b34dd37b8,
   0x027ea7860afc3de502d056d9a19ca330f16cd61cfefbeb768df68a882d1f8f15f5,
   0x026c19becac43626582622e2b7e86ebd8056f40aa8ab031e70f4deae8cab34503f,
   0x02098dab044c888ddebe6713fcb8481f178e3ba42d63310b08d8234e20fe1de13f,
   0x02ed6af1a2bebcb381ce92f87638267b1afefe7a1cdce16253f5bf9f99a84ce4b2,
   0x023d8493f9e72cd3212166de50940d980f603ae429309abb29e15cccc1983efe37,
   0x025c07d7513b1bae52a0089a4faee127148e2ba5a651983083aedc1ae8403cf1eb,
   0x0285a93a8c8e6134b3a53c5bd1b5b7d24e7911763ea887847c5d66af172ed17f10,
   0x02fea28fb142aa95fcd44398c9482a3c185ec22fee8f24ad6b2297ac7478423f21,
   0x02f9840a1635ae3fa131405526974d40d2edee17adf58278956373ce6c69757c2a,
   0x023579e441a7dcdbd36a2932c64fa3318023b1f3d04daab148622b7646246a6d7c,
   0x02bcbc2933f90a88996c1363c8d3a7004e0c6b75040041201fb022e45acb0af6a7,
   0x02cd52e0d28f5564fc2bf842fa63dfefbcf2bb5fe0325703c132be5cd14cca7291,
   0x021e648e261b93fedd3439352899c0fa1acedd1f68ab508050a13ed3cbbc93c2ff,
   0x0295f9caea5f57d11b12ddee154a36a14921a8980fa76726e48e1d76443d4e306f,
   0x02396edf4c18283dd3ef68a2c57b642bd87ae9f8b6be5e5fe4a41c5b86c5db8eb2,
   0x0264f323ca3eee79385c9bfd35cd4cf576e51722f38dd98531d531a29913e5170d,
   0x02facd3f63f543e0ab9b13323340113acbe8ed3bafdfabdc80626cdd15386c80f3,
   0x02b6762640f96367fbf65eecfafcee5c6f7d6a42b706113053bb36a882659d3e65,
   0x02ed63f2eca15d9b338fcdb9b3efa3b326e173a1390706258829680f7973fa851c,
   0x026f6d47d0d48ff13d64ec6a1db2dc51173cee86ab8010a17809b3fe01483d9fc5,
   0x02814e7cae580a1ef86d6ee9b2f9f26fe771e8ea47acf11153b04680ada9cd3042,
   0x020e46225fb3ee8f04d08ffbe12d9092ff7f7227f9cb55709890c669e8a1c97963,
   0x028194469e8d6ee660e95d6125ba0152ad5c24bf7e452adf80db7062d6926851c4,
   0x02b3e1f5754562635ebeecfd32edb0d84a79b2f0c270bac153e60dd29334dc2663,
   0x02afff20730724a2d422f330e962362e7831753545ac0a931dd94be011ccf93e9c,
   0x02a9cfdf0471a34babfc2f6201dbc79530f3f319204daedb7ec05effc2bdfc5a74,
   0x02838fe450f2dd0c460b5fae90ec2feb5b7f001f9cd14c01a475c492cf16ea594b,
   0x02aacc3145d04972d0527c4458629d328219feda92bef6ef6025878e3a252e105a,
   0x02720fe09616d4325d3c4c702a0aeafbbbff95ef962af531c5ae9461ec81fdf8c5,
   0x02e6408f24461a6c484f6c4493c992d303211d5e4297d34afede719a2b70c96c14,
   0x02b9ecf2d3fdf2611c6d4be441a0f9a3810dadae39feb3c0d855748cc2dd98a968,
   0x027a32d12a536af038631890a9b90ee20b219c9c8231a95b1cde24c143d8173fec,
   0x02d26c98fb50b57b7defdf1e8062a52b2a859ba42f3d1760ee8ff99c4e9eb3ec03,
   0x02df85556e8d1e97a8093e4d9950905ebced0ea9a1e49728713df1974eeb455774,
   0x021fe1dbada397155a80225b59b4fb9a32450a991b2d9d11d8500e98344927c856,
   0x0211ccd0980a9ab6f4bb82fdc2e2d1ddace063a7bc1914a6ab4d02b0fa1ca746ec,
   0x0264bd41f41aad19f8bfd290fd3af346ebbf80efd33f515854f82bd57e9740f7aa,
   0x0226d5fb607cadb8720e900ce9afb9607386ad7b767e4ab3a4e0966223324b92eb,
   0x02b3bbf2e2ceae25701bd3b78ba13bea3f0dfed7581b8a8a67c66de9fd96ee41e2,
   0x024b8dd765e385d0e04772f3dbf1b1a82abc2de3e5740baac1f6306cd9fd45fe99,
   0x022153f6a884ae893ebb0642a84d624c0b62894d7cb9e2a48a3a0c4696e593f9db,
   0x0245e22b6388cb14c9c8dbcac94853bdf1e81816c07e926a82b96fc958aa874626,
   0x02cba97826b089c695b1acffdcdbf1484beec5eb95853fea1535d6d7bdb4e678b0,
   0x02ed006fbab2d18adbd96d2f1de6b83948e2a47acc8d2f92d7af9ba01ffae58276,
   0x02513592f4434ee62802d3965f847684693000830107c72cd8de4b34e05b532dae,
   0x028adc75647453a247bd44855abb56b60794aaed5ce21c9898e62adac7adcfbe8e,
   0x02a712d5dc572086359f1688e8e7b9a5f7fc3079644aea27cdddb382208fee885b,
   0x029abf8551218c9076f6d344baa099041fe73e5e844aac6e5c20240834105cdf60,
   0x027d480071a2d128c51e84c380467e1ac8435f05b985bbfee0099d35b4121fb0ca,
   0x02a7f2e4253fa0d833beca742e210c0d59a4ffc8559764766dcffb1aa3e4961826,
   0x023521309a6bdfafdf7bdae574a5f6010eb992e4bae46d8f83c478eac137889270,
   0x02b99fe8623aa19ca2bed6fe435ae95c5072a40193913bebe5466f675c92a31db7,
   0x02dc035112a2b4881917ea1db159e7f35ee9d98d31533e1285ca150ce84e538e4f,
   0x0291a07ecce8061561624de7348135b9081c5edd61541b24fa002fb6c074318fec,
   0x020d8a5253d7e0166aa37680a5f64cab0cdad2cdc4c0e8ae61d310df4c4f7386eb,
   0x026285db47fee60b5ad54cbd4c27a4e0cd723b86a920f03b12dc9b8c5f19f06448,
   0x020f94a9df4302f701b4629f74d401484daf84c7aabaf533f8c21c1626009e923c,
   0x027bb78af54b01ddad4e96b51a4e024105b373aab7e1a6ec16279967fcbbb096b4,
   0x02e1b20c0da3b8c991f8909fd0d31874be00e9fcb130d7c28b8ad53326cdf13755,
   0x02bbdd4dfc047f216e2cbff789bcf850423bedf2006d959963f75621810fecf0d9,
   0x024e1fe4b23feda8651a467090e0ce7e8b8db2ccb1c27d52255c76754aa1940d1b,
   0x0241aad8f575556c49c4fefae178c2c38541962bfff2ca84ebecea9f661ccf3536,
   0x02bcf6203d725ca0640bd045389e854e00087c54ba01fd739c6ef685b22f89340c,
   0x0202178e6b3a9b498399aa392b32dc9010f1eea322a6d439ad0c8cacf2008b3e34,
   0x026db3289d470df0fdf04f5f608fae2d7ec4ddbd3de2603f6685789520bdee01fc,
   0x0239bcfc796488129e3b2f01e6fbbda2f1b357b602e94b5091b44c916e9806dc34,
   0x020513bc4a618d32d784083f13d46e6c6d547f01b24942351760f6dc42e2bb7167,
   0x0204d2495e4fc20e0571ab2fcb4c1989fdda4542923aa97fe1a77a11c79ade1964,
   0x021eaa6af99ea4f1143a45a1b5af7b2d3c3e8810f358be6261248c5ba2492a7b4e,
   0x02799849e87e3862170add5b28a3b7e54b04cc60c2cec39de7eca9bfdfaaf930a8,
   0x02639bced287084268136c5b6e9e22f743b6c8f813e6aabe39521715bfa4a46ab8,
   0x0283c8b21fc038c1fbeedfae0b3abc4dbde672b0dcfda540f9fcfcf8c6e6d29fc3,
   0x02b284f4510535ff98e683f25c08b7ae7dd19f7b861e70a202469ddfb2877bc729,
   0x0256af1c82cde40ffd03564368b8256a5e48ef056df2655013f0b1aa15de1de8d2,
   0x02964b55eab2f19518ee735cae2f7f780bfab480bcbd360f7a90a2904301203366,
   0x02f046486f4a473f2226f6bd120aafc55a5c8651f3eb0855aa6a821f69f3016cc6,
   0x02eb8dfb7c59fbf24671e258ca5e8eda3ea74c5f0455eed4987cfda79f4fcf823f,
   0x020fac2c37cc273d982c07b2719a3694348629d5bdaebc22967fb9d0e1d7f01842,
   0x025c0c8ff9a102f99f700081526d2b93b9d51caf81dcf4d02e93cf83b4a7ff5c92,
   0x02a118f5fa9c5ef02707e021f9cb8056e69018ef145bec80ead4e09c06a60050c1,
   0x029ea72333d1908bb082bffec9da8824883df76a89709ab090df86c45be4abf784,
   0x02bacc52256e5221dbfc9a3f22e30fa8e86ddd38e3877e3dc41de91bdcf989b00b,
   0x02bc8b37dc66e2296ae706c896f5b86bd335f724cfa9783e41b9dc5e901b42b1de,
   0x02eca1099cea9bcab80820d6b64aec16dce1efa0e997b589f6dba3a8fd391fb100,
   0x027f1c1bb99bd1a0e486f415f8960d45614a6fcac8cedc260e07197733844827d0,
   0x021fc54df458bcfafc8a83d4759224c49c4b338cf23cd9825d6e9cdeffc276375b,
   0x027d4fff88da831999ba9b21e19baf747dc26ea76651146e463d4f3e51c586ee91,
   0x02e49c0fef0ebc52908cdcea4d913a42e5f24439fffdfaa21cc55a6add0ad9d122,
   0x0208b5e8e5035fdb62517d4ebab0696775dbfbdba8ff80f2031c1156cda195a2ab,
   0x0202e990bab267fff1575d6acc76fe2041f4196f4b17678872f9c160d930e5be35,
   0x02c73fcedd9f6eabc8fe4e1e7211cdb0f28967391d200147d46e4077d2915c262d,
   0x0261490abc5f14387ef585f42d99dbddb0837b166694d4af521086a1ffd46e5640,
   0x02b46a143e4e0af20a12c39f3105aca57ca79f9332df67619ee859b5d9bffb6d6d,
   0x0299f53c064d068f003f8871acae31b84ddda9d8dbe516d02dc170c70314ee2af7,
   0x023305144dccba65c67001474ee1135aa96432f386b5eb27582393b2ed4bfc185d,
   0x02e044b70ff7e9c784b3c40d09bdfadd4a037e692b0b3aa9ab6bb91203f86a0b37,
   0x02ded067a2e44282b0d731a28ffbd03ca6046c5b1a262887ea7cab4810050fbb8c,
   0x02e00e4c9198194d92a93059bce61f8249e1006eee287aa94fe51bb207462e5492,
   0x0241b89d9164f4c07595ca99b7d73cad2b20ac39847cf703dff1d7d6add339ebeb,
   0x02eba24cd4946e149025a9bf7759df5362245bf7c53c5a3205be0c92c59db8d5dc,
   0x026bd40c611246a789521c46d758a80337ff40bb298a964612b2af74039211727a,
   0x02b9095e071e4edfddf8afb0e176536957509d23f90fb7175ad086b4098e731c73,
   0x0214ad0014dfddc5c7eb0801b97268c1b7e03d64215d6b9d5ed80b468089e4a01d,
   0x02c455b8e38103ade8794fb51a1656e1439b42bdf79afd17a9df8542153914a7cf,
   0x02cc89d6437fdcf711a76eb16f4014f2e21b71740afc8b3ec13ccb60a45b12d815,
   0x0208eee5857dda0ae1c721e6ed4c74044add4e1ce66f105413e9ef1cccbdca87ad,
   0x02edc663693827cad44d004ac24753bfc3167f81ff4074bb862453376593229c0f,
   0x0202a4b7fb31e30b6d8f90a5442ef31f800902ea7a9511e24437b7a0ef516f79a9,
   0x02ff05472c2019ac2c9ab8b7fcb0604a94b7379c350306be262144588ea252d0f4,
   0x02b131bb594a1270d231e18459e484c49f3eca3b3b2291c9be81c01dc8a4037fa1,
   0x02f50125277ea19f633e93868cf8e8a4cd76b21eedf8e3ef59de43f40d73a01d01,
   0x027aab228a7d6f87003b01fb9c0b9bcfb2098adbc76f5f9b856aedd28077fc4471,
   0x02925200e4f74bea719a99f4a0b05165b9af475f2187381bd0b79cad4d5f2593b6,
   0x02c311f1750c6d5c364b71c3b0f369f6959d34a3718da695c5b227ecf1a4669bf6,
   0x02cb030c71169d0a1ae30ffba92311bc06bb64b27570598dedabdea0b24631a0ca,
   0x02e64669898eecff7aa887307be696a694f61559e7ca41119677b7e94f37cd2914,
   0x028fe93e32c24df7f8aaf8d777335fd9ce9f9b5c121dec2ab1ff21575c047497e7,
   0x026f08c1c3cb4cff5cdbd7985db4a8ebf0ebc0924530b0fa118d095c4667efeb52,
   0x02afe08dbba6c999efb73aeae1da0ad8b143a1b51759caffd3ed2de4494adc47fb,
   0x02e99aec0b5e869b3885a3b9f527fd3c546dde83d41a5a156703d0da5e10e04743,
   0x02b7e5f4cb9233107bf7a47789dca4eb811af108822f2d4bd03dec13251ec45984,
   0x023b971e135daa0b851797b17e3a1cc5ac8a9a6207a2e784a0fe36732a00407b49,
   0x02b1742739bfbb528b2a2731cb5d5f1bd03f4fa9c94607837e586c7c6f6589be4a,
   0x022cd1b023bb2afc68ee27b40f8deb1d1c6d7b7aa97c32c444f1ceebd449dbeb22,
   0x02704e21f8bf38158d7e8100e297adfc930c14c8791beee9b907407f4ca654d95b,
   0x02caabeb678374ca75bd815c370b2e37fb0470591557219d6289b1b1e655ed80c6,
   0x026aa8d45112aa0da335054194c739e04787526250493f5a0eaaa8a346541d1a0f,
   0x022fb12408355439bbee33066bbeefcffb0bdc9cfd1950510fd2a42bdc4eaa1d53,
   0x02639fe47769f7694ca6dbfd934762472391d70b23868a58e11d2bd46373e1df29,
   0x02f75360f52df674247c5f005b3451ee47becf3204862154d4e7ee97a0e40df3d2,
   0x0230241e27d0d3ad727d26472541fcd48f2bb128db5611237fa9f33f86ede8d5c9,
   0x0255d5a0aa37a226c001f6b7f19e2bddb10aeaa0652430b8defe35c3f03dfb3c0e,
   0x024e6faa398b0acf8a8dfdd9d21e0a46a22d07cd0fcffd89749f74f94f9993f4d9,
   0x020c1a256587306f58f274cc2238f651bbfadfd42436e6eb8f318ac08fae04e7ae,
   0x025858b8188da173e8b01b8713b154ffae8b2d2eb8f9670362877102cf0c0c4f28,
   0x02dc7509c77d7fa61c08c5525fb151bf4fe12deb1989a3be560a63105dae2ecd2e,
   0x02a272df6dab1c22c209b45b601737c0077acb7869bb9fe264c991b4ef199e337d,
   0x025168f2fdd730b4c33b57d3956e6a40dd27a4f32db70d9f9b5898fa2bed3de342,
   0x028133baac70bc2c2ebe8a22af04b5faedd070e276c90e2f910bb9bf89441a80db,
   0x029064628ebd6e97a945c1d52641a27bff3c4f59659e657b88d23c2ce1c4d04644,
   0x023cf20c4e8675bce999a0128602fe21699db651540f3dcbe7a4ef2126243ba17a,
   0x02cc685739a4b20e2d52ddf256e597c06b7eb69e65d009820c6744b739c7215340,
   0x02d061544ce21398af3e0e6c329ce49976a9ecd804ebc543f4c16f6a32798f37c2,
   0x029fe49ff440f23c69360a92d249db429bdc3601fc8a5a3fc1aa894de817c05490,
   0x0222c8c4e90585f9816b5801bad43fb608857269fdaaefbe2b5b85903231685679,
   0x0296b72ed4968860b733fb99846698df2e95c65af281b3ef8b5ab90e2d5de966cb,
   0x02c27565a7fd5d1f4bcbe969bddbace99553fb65cb7750965350ff230b1f09f97d,
   0x02e1254be9833236609bf44c62ef6da7188a44bbe2d53a72cf39a38ef9f99bb783,
   0x0280663ce16afadc77e00ade780da53e7c11b02a66cbf36837ef7d9d2488f23417,
   0x02ad8b11e62c6753917307bdde89a42896e0070d33f6f93c608d82f6d041b814a4,
   0x02ce1d943dfc14654266507def2b7b9940bffceb4f54d709a149f99962083398fc,
   0x023ea7eb26248c05beb4e4d8ba9f9785d5fd1a55d3137c90f40b807b60aa4262df,
   0x0211c802fec9b31710d3849e2c1700cea5374ae422e54551946d96fc240c63fba0,
   0x02204ad97ebe2ec30d6db1bfc1e1d4660331909668634c3cd928b5c369a6013367,
   0x020251bf4271d359a082cdad23d9a5cd48916d78eed010fe1e7d9711cd420b3cdf,
   0x0292b9757195350676e447e49425f887d3df7e27774bb3e0aab5b528da0a1a0340,
   0x022be18362b2a167199a76f6065358063b1167d5bbcfe7652fc55f93a5ebd42e89,
   0x02e6b1e618efe5f468bdb40f5ec167ed4fa7636849c4ff4ddab0199c903b37306c,
   0x02a6676873de91890ecae000c575e46e4a9629865fb1662606da5e9c1fdcd55d5c,
   0x02c088a3c96b13413caa5f32a8f4640e76ec0a37990577d679d2062e859547f058,
   0x023e9703ed6209d5a25e0ecb34e04c22f274f37845aa2a4e2f2343e39928360e25,
   0x02977d845787c4690152827bfd15e801044c84d33430a7ed928499e828cf131d14,
   0x0224ea648555445d1305aaf6bd74fda3041b2a10bf7900a4c067462b01c6dc25f1,
   0x02dfd472c98ece1dc2a18c1bebf98a09990fba673e725c029928937247022b9d24,
   0x02a2a03933d06617adcf0f4ad692e95d463a5fa9938e8d451e5d6271f4a5af8bb4,
   0x02ca24fa8d7aa53f7f5b4e1ca16eb6fd9b9cfb0162a332abb7a88ddf8e964c99bc,
   0x02bbce92d1db3ef0c9c09793b760fd3b929c9168e4dff396c618fa0ed3cf6a5edb,
   0x028af15d26d3b297f4d2aeaf308632b60251accf87aa8470b3d4d1ef2dabb99209,
   0x021b81c0e878389231339fd9d622a736fc9d36de93a58ea6a4bc38fef86672278a,
   0x021adc24309f605c7a5af106e8b930feaec0bec6545fb4c70b83ebe5cf341cab2d,
   0x020462a3ff101ac379f87f43190459b7494f4128ea30035877ce22a35afb995e34,
   0x02f1019851779a6d0db09e8abeba3b9a07b6931b43b0d973cfe261a96b4516cca4,
   0x02d7023276f01ff22a9efeadd5b539d1d9ceb80ebf6813e6042a49c946a82f366f,
   0x021594f45af3a21e0210a2ca4cbc3e95ea95db5aca3561fc1f759cb7f104dd0f62,
   0x021398309b6c293c0dc28cdd7e55ad06306b59cb9c10d947df565e4a90f095a62a,
   0x029f39d84383200e841187c5b0564e3b01a2ba019b86221c0c1dd3eae1b4dabb26,
   0x0252ec719852f71c2d58886dd6ace6461a64677a368b7b8e220da005ac977abdc8,
   0x0237f0d7de84b2cc6d2109b7241c3d49479066a09d1412c7a4734192715b021e06,
   0x021e9e0e4784d15a29721c9a33fbcfb0af305d559c98a38dcf0ce647edd2c50caa,
   0x02e705994a78f7942726209947d62d64edd062acfa8a708c21ac65de71e7ae71df,
   0x0295f1cafd97e026341af3670ef750de4c44c82e6882f65908ec167d93d7056806,
   0x023a0d381598e185bbff88494dc54e0a083d3b9ce9c8c4b86b5a4c9d5f949b1828,
   0x02a0a8694820c794852110e5939a2c03f8482f81ed57396042c6b34557f6eb430a]

/-- Bulk check that `get_nums` matches the literal table on `[lo, hi)`. -/
def numsCheckRange (lo hi : ℕ) : Bool :=
  ((List.range (hi - lo)).map (· + lo)).all fun i =>
    match get_nums i with
    | .ok x => x == PRECOMPUTEDNUMS.get! i
    | .error _ => false


/-! ## Economic verifier (bitcoincore/utils.rs verify_transaction and
bdk/taker.rs Taker::verify_transaction)

Rust `f64`/`f32` arithmetic on satoshi amounts is modelled exactly: a float
is the rational value it denotes, and every operation rounds its exact
rational result to the nearest 53-bit (f64) or 24-bit (f32) dyadic, ties to
even (the exponent range is never reached by satoshi amounts). -/


/-- Unnormalised fraction with positive denominator. -/
structure Frac : Type where
  num : ℤ
  den : ℕ
  deriving Repr

def Frac.ofInt (z : ℤ) : Frac := ⟨z, 1⟩

def Frac.mul (a b : Frac) : Frac := ⟨a.num * b.num, a.den * b.den⟩

def Frac.inv (a : Frac) : Frac :=
  if a.num < 0 then ⟨-(a.den : ℤ), a.num.natAbs⟩ else ⟨(a.den : ℤ), a.num.natAbs⟩

def Frac.div (a b : Frac) : Frac := a.mul b.inv

def Frac.ble (a b : Frac) : Bool := a.num * (b.den : ℤ) ≤ b.num * (a.den : ℤ)

def Frac.blt (a b : Frac) : Bool := a.num * (b.den : ℤ) < b.num * (a.den : ℤ)

def Frac.floor (a : Frac) : ℤ := Int.fdiv a.num (a.den : ℤ)

def Frac.abs (a : Frac) : Frac := ⟨(a.num.natAbs : ℤ), a.den⟩

def pow2 (k : ℤ) : Frac := if 0 ≤ k then ⟨2 ^ k.toNat, 1⟩ else ⟨1, 2 ^ (-k).toNat⟩

def Frac.mulPow2 (a : Frac) (k : ℤ) : Frac :=
  if 0 ≤ k then ⟨a.num * 2 ^ k.toNat, a.den⟩ else ⟨a.num, a.den * 2 ^ (-k).toNat⟩

/-- Fuel-driven base-2 logarithm (fuel only makes the recursion structural). -/
def log2F : ℕ → ℕ → ℕ
  | 0, _ => 0
  | fuel + 1, n => if n ≤ 1 then 0 else log2F fuel (n / 2) + 1

/-- ⌊log₂ n⌋ for positive n. -/
def nlog2 (n : ℕ) : ℕ := log2F n n

/-- Floor of log₂ |a| (for a ≠ 0). -/
def Frac.log2 (a : Frac) : ℤ :=
  let e : ℤ := (nlog2 a.num.natAbs : ℤ) - (nlog2 a.den : ℤ)
  if (pow2 e).ble a.abs then e else e - 1

/-- Round to the nearest integer, ties to even. -/
def rhe (x : Frac) : ℤ :=
  let f := x.floor
  let r2 := 2 * (x.num - f * (x.den : ℤ))
  if r2 < (x.den : ℤ) then f
  else if (x.den : ℤ) < r2 then f + 1
  else if f % 2 = 0 then f else f + 1

/-- Round a rational to the nearest IEEE-style binary float with a
`prec`-bit mantissa (round to nearest, ties to even; unbounded exponent). -/
def fRound (prec : ℕ) (x : Frac) : Frac :=
  if x.num = 0 then ⟨0, 1⟩
  else
    let k : ℤ := (prec : ℤ) - 1 - x.log2
    (Frac.ofInt (rhe (x.mulPow2 k))).mulPow2 (-k)


/-- `SignedAmount::to_float_in(Denomination::Satoshi)` of an i64 amount. -/
def f64i (z : ℤ) : Frac := fRound 53 (Frac.ofInt z)

/-- `f64` division. -/
def f64div (a b : Frac) : Frac := fRound 53 (a.div b)

/-- `u64 as f32`. -/
def f32n (a : ℕ) : Frac := fRound 24 (Frac.ofInt (a : ℤ))

/-- `f32` multiplication. -/
def f32mul (a b : Frac) : Frac := fRound 24 (a.mul b)

/-- The `f32` literal `MAX_FEE = 0.15` (types.rs:25). -/
def MAX_FEE : Frac := fRound 24 ⟨3, 20⟩

/-- CJFee (types.rs): absolute fee in sats, relative fee an `f64` value. -/
structure CJFee : Type where
  abs_fee : ℕ
  rel_fee : Frac

/-- MaxMineingFee (types.rs). -/
structure MaxMineingFee : Type where
  abs_fee : ℕ
  rel_fee : Frac

/-- VerifyCJInfo (types.rs): signed satoshi fees and the verified flag. -/
structure VerifyCJInfo : Type where
  mining_fee : ℤ
  maker_fee : ℤ
  verifyed : Bool

/-- Role (bitcoincore/utils.rs:217-220). -/
inductive Role : Type
  | maker (cj_fee : CJFee) (min_size : ℕ) (max_size : Option ℕ)
  | taker (cj_fee : CJFee) (max_mining_fee : MaxMineingFee)

/-- `Amount::to_signed`: u64 sats into i64, erring past `i64::MAX`. -/
def toSigned (a : ℕ) : Except Err ℤ :=
  if a < 2 ^ 63 then .ok (a : ℤ) else .error .parseAmount

/-- `verify_transaction` (bitcoincore/utils.rs:42-98), taken after the RPC
loops `get_input_value`/`get_output_value` have produced the four totals
(those loops sum values outside this function).  `input - output` is Amount
subtraction, which panics on underflow; each `to_signed()?` may error; the
Maker arm accepts iff `maker_fee ≥ abs_fee` AND `percent ≥ rel_fee` AND
`A ≤ maxsize` (when set) AND `A ≥ minsize`; the Taker arm has NO maximum-fee
rejection — it only computes the verified flag. -/
def verify_transaction (send_amount : ℕ) (role : Role)
    (input_value my_input_value output_value my_output_value : ℕ) :
    Except Err VerifyCJInfo := do
  if input_value < output_value then .error .panicked else do
  let mining_fee ← toSigned (input_value - output_value)
  match role with
  | .maker cj_fee min_size max_size => do
    let myOut ← toSigned my_output_value
    let myIn ← toSigned my_input_value
    let maker_fee := myOut - myIn
    let absFee ← toSigned cj_fee.abs_fee
    let fee_as_percent := f64div (f64i maker_fee) (f64i (send_amount : ℤ))
    let max_amount_check :=
      match max_size with
      | some m => decide (send_amount ≤ m)
      | none => true
    .ok ⟨mining_fee, maker_fee,
      decide (absFee ≤ maker_fee) && Frac.ble cj_fee.rel_fee fee_as_percent &&
        max_amount_check && decide (min_size ≤ send_amount)⟩
  | .taker cj_fee max_mining => do
    let myIn ← toSigned my_input_value
    let myOut ← toSigned my_output_value
    let maker_fee := myIn - myOut - mining_fee
    let absFee ← toSigned cj_fee.abs_fee
    let fee_as_percent := f64div (f64i maker_fee) (f64i (send_amount : ℤ))
    let maxMine ← toSigned max_mining.abs_fee
    .ok ⟨mining_fee, maker_fee,
      decide (maker_fee < absFee) && Frac.blt fee_as_percent cj_fee.rel_fee &&
        decide (mining_fee < maxMine)⟩

/-- `Taker::verify_transaction` (bdk/taker.rs:181-223), likewise taken after
the input/output sums.  Before computing the verified flag it rejects with
`FeesTooHigh` when `input_total − output_total` exceeds
`Amount::from_sat((send_amount as f32 * MAX_FEE).floor() as u64)`; the
`checked_sub(..).unwrap_or(true)` underflow arm is unreachable because the
earlier Amount subtraction for `mining_fee` already panics on underflow. -/
def bdk_verify_transaction (send_amount : ℕ) (cj_fee : CJFee)
    (mining_cfg : MaxMineingFee)
    (input_value my_input_value output_value my_output_value : ℕ) :
    Except Err VerifyCJInfo := do
  if input_value < output_value then .error .panicked else do
  let mining_fee ← toSigned (input_value - output_value)
  let myIn ← toSigned my_input_value
  let myOut ← toSigned my_output_value
  let maker_fee := myIn - myOut - mining_fee
  let absFee ← toSigned cj_fee.abs_fee
  let fee_as_percent := f64div (f64i maker_fee) (f64i (send_amount : ℤ))
  if Int.toNat (f32mul (f32n send_amount) MAX_FEE).floor < input_value - output_value then
    .error .feesTooHigh
  else do
  let maxMine ← toSigned mining_cfg.abs_fee
  .ok ⟨mining_fee, maker_fee,
    decide (maker_fee < absFee) && Frac.blt fee_as_percent cj_fee.rel_fee &&
      decide (mining_fee < maxMine)⟩

/-- Modelled from the spec (§4.5): the Maker acceptance condition
`maker_fee ≥ abs_fee_min ∧ maker_fee/A ≥ rel_fee_min ∧ minsize ≤ A ≤ maxsize`
(ratio in 64-bit floating point, maximum bound only when configured). -/
def makerVerifiedSpec (cj_fee : CJFee) (min_size : ℕ) (max_size : Option ℕ)
    (send_amount : ℕ) (my_input my_output : ℤ) : Bool :=
  decide ((cj_fee.abs_fee : ℤ) ≤ my_output - my_input) &&
    Frac.ble cj_fee.rel_fee
      (f64div (f64i (my_output - my_input)) (f64i (send_amount : ℤ))) &&
    (match max_size with
     | some m => decide (send_amount ≤ m)
     | none => true) &&
    decide (min_size ≤ send_amount)

/-- Modelled from the spec (§4.5): the Taker acceptance condition
`maker_fee < abs_fee_max ∧ maker_fee/A < rel_fee_max ∧
mining_fee < abs_mining_fee_max` with `maker_fee = my_in − my_out − mining`
(ratio in 64-bit floating point). -/
def takerVerifiedSpec (cj_fee : CJFee) (mining_cfg : MaxMineingFee)
    (send_amount : ℕ) (my_input my_output mining_fee : ℤ) : Bool :=
  decide (my_input - my_output - mining_fee < (cj_fee.abs_fee : ℤ)) &&
    Frac.blt
      (f64div (f64i (my_input - my_output - mining_fee)) (f64i (send_amount : ℤ)))
      cj_fee.rel_fee &&
    decide (mining_fee < (mining_cfg.abs_fee : ℤ))


/-! ## CoinJoin assembly (bitcoincore/taker.rs Taker::get_inputs / create_cj,
and the generic taker.rs Taker::create_cj)

UTXOs are modelled by their satoshi values (the values `get_tx_out` returns);
addresses by numeric identifiers (the source keys its output HashMap by the
address string). -/

/-- The dust limit (types.rs:22). -/
def DUST : ℕ := 546

/-- IoAuth as create_cj consumes it: the values of the maker's utxos and its
two addresses. -/
structure IoAuth : Type where
  utxos : List ℕ
  coinjoin_address : ℕ
  change_address : ℕ

/-- `HashMap::insert` on the outputs map (replace value at existing key,
otherwise append). -/
def insertOut (m : List (ℕ × ℕ)) (k v : ℕ) : List (ℕ × ℕ) :=
  if m.any (fun kv => kv.1 = k) then m.map (fun kv => if kv.1 = k then (k, v) else kv)
  else m ++ [(k, v)]

/-- `HashMap::get` on the outputs map. -/
def lookupOut (m : List (ℕ × ℕ)) (k : ℕ) : Option ℕ :=
  (m.find? (fun kv => kv.1 = k)).map (fun kv => kv.2)

/-- The greedy loop of `Taker::get_inputs` (bitcoincore/taker.rs:79-102):
push each utxo and stop as soon as the accumulated value reaches the target
(the source returns whatever it accumulated if the list runs out). -/
def getInputsGo : List ℕ → ℕ → ℕ → List ℕ → ℕ × List ℕ
  | [], _, value, acc => (value, acc.reverse)
  | v :: rest, amount, value, acc =>
    if amount ≤ value + v then (value + v, (v :: acc).reverse)
    else getInputsGo rest amount (value + v) (v :: acc)

/-- `Taker::get_inputs`. -/
def get_inputs (unspent : List ℕ) (amount : ℕ) : ℕ × List ℕ :=
  getInputsGo unspent amount 0 []

/-- The per-maker loop of `create_cj` (bitcoincore/taker.rs:130-149): sum the
maker's input values, pay `send_amount` to its coinjoin address, and emit a
change output `maker_input_val − send_amount + cj_fee` only when it exceeds
DUST; `maker_input_val − send_amount` is Amount subtraction, panicking on
underflow.  Accumulates total maker fees. -/
def makerLoop : List (ℕ × IoAuth) → ℕ → List (ℕ × ℕ) → ℕ →
    Except Err (List (ℕ × ℕ) × ℕ)
  | [], _, outs, fees => .ok (outs, fees)
  | (cjfee, io) :: rest, send_amount, outs, fees =>
    let mval := io.utxos.foldl (fun a b => a + b) 0
    let outs2 := insertOut outs io.coinjoin_address send_amount
    if mval < send_amount then .error .panicked
    else
      makerLoop rest send_amount
        (if DUST < mval - send_amount + cjfee then
          insertOut outs2 io.change_address (mval - send_amount + cjfee)
        else outs2)
        (fees + cjfee)

/-- Same loop in the generic taker.rs `create_cj` (taker.rs:310-328), which
inserts the maker change output UNCONDITIONALLY (no dust check). -/
def makerLoopND : List (ℕ × IoAuth) → ℕ → List (ℕ × ℕ) → ℕ →
    Except Err (List (ℕ × ℕ) × ℕ)
  | [], _, outs, fees => .ok (outs, fees)
  | (cjfee, io) :: rest, send_amount, outs, fees =>
    let mval := io.utxos.foldl (fun a b => a + b) 0
    let outs2 := insertOut outs io.coinjoin_address send_amount
    if mval < send_amount then .error .panicked
    else
      makerLoopND rest send_amount
        (insertOut outs2 io.change_address (mval - send_amount + cjfee))
        (fees + cjfee)

/-- The final mining fee (bitcoincore/taker.rs:173-184):
`max(270, est_rate·vsize/1000)` when estimation succeeds, 500 otherwise. -/
def miningFeeFinal (fee_est : Option ℕ) (vsize : ℕ) : ℕ :=
  match fee_est with
  | some fee => if 270 < fee * vsize / 1000 then fee * vsize / 1000 else 270
  | none => 500

/-- `Taker::create_cj` (bitcoincore/taker.rs:107-207), returning the outputs
map of the assembled PSBT.  After the maker loop: greedy-select taker inputs
against the placeholder target `A + total_maker_fees + 500`; add the taker
CJ output and a 1000-sat dummy change; compute the real mining fee; replace
the change with `taker_in − A − total_maker_fees − mining_fee`, failing with
InsufficientFunds when negative. -/
def create_cj (send_amount : ℕ) (maker_inputs : List (ℕ × IoAuth))
    (unspent : List ℕ) (taker_cj_addr taker_change_addr : ℕ)
    (fee_est : Option ℕ) (vsize : ℕ) : Except Err (List (ℕ × ℕ)) := do
  let ml ← makerLoop maker_inputs send_amount [] 0
  let taker_inputs := get_inputs unspent (send_amount + ml.2 + 500)
  let outs := insertOut (insertOut ml.1 taker_cj_addr send_amount) taker_change_addr 1000
  let mining_fee := miningFeeFinal fee_est vsize
  let ti ← toSigned taker_inputs.1
  let sa ← toSigned send_amount
  let tf ← toSigned ml.2
  let mf ← toSigned mining_fee
  if ti - sa - tf - mf < 0 then .error .insufficientFunds
  else .ok (insertOut outs taker_change_addr (Int.toNat (ti - sa - tf - mf)))

/-- The generic `Taker::create_cj` (taker.rs:287-387): identical except the
maker loop emits change unconditionally. -/
def create_cj_taker_rs (send_amount : ℕ) (maker_inputs : List (ℕ × IoAuth))
    (unspent : List ℕ) (taker_cj_addr taker_change_addr : ℕ)
    (fee_est : Option ℕ) (vsize : ℕ) : Except Err (List (ℕ × ℕ)) := do
  let ml ← makerLoopND maker_inputs send_amount [] 0
  let taker_inputs := get_inputs unspent (send_amount + ml.2 + 500)
  let outs := insertOut (insertOut ml.1 taker_cj_addr send_amount) taker_change_addr 1000
  let mining_fee := miningFeeFinal fee_est vsize
  let ti ← toSigned taker_inputs.1
  let sa ← toSigned send_amount
  let tf ← toSigned ml.2
  let mf ← toSigned mining_fee
  if ti - sa - tf - mf < 0 then .error .insufficientFunds
  else .ok (insertOut outs taker_change_addr (Int.toNat (ti - sa - tf - mf)))

/-- Total maker fees of a maker-input list. -/
def totalFees (maker_inputs : List (ℕ × IoAuth)) : ℕ :=
  (maker_inputs.map (fun mi => mi.1)).sum


/-! ## Protocol event kinds (taker.rs / maker.rs / utils.rs senders and the
types.rs wire-contract constants) -/

/-- The numeric kind constants types.rs:12-19 declares for the wire
contract. -/
def ABS_OFFER : ℕ := 10123

def REL_OFFER : ℕ := 10124

def FILL : ℕ := 125

def PUBKEY : ℕ := 126

def AUTH : ℕ := 127

def IOAUTH : ℕ := 128

def TRANSACTION : ℕ := 129

def SIGNED_TRANSACTION : ℕ := 130

/-- Payload variants of NostrdizerMessages (types.rs:139-147). -/
inductive MsgTag : Type
  | offer
  | fill
  | pubkey
  | auth
  | makerInputs
  | unsignedCJ
  | signedCJ
  deriving DecidableEq

/-- What a sender hands to `publish_ephemeral_event`: the numeric kind, the
recipient named in the `p`-tag, and the payload variant (peers are numeric
identifiers; NIP-04 encryption is external and content-preserving). -/
structure PublishedEvent : Type where
  kind : ℕ
  recipient : ℕ
  msg : MsgTag
  deriving DecidableEq

/-- `Taker::send_fill_offer_message` (taker.rs:390-412): Fill at kind 125. -/
def send_fill_offer_message (peer : ℕ) : PublishedEvent := ⟨125, peer, .fill⟩

/-- `Maker::send_maker_input` (maker.rs:263-285): IoAuth (MakerInputs
payload) at kind 126. -/
def send_maker_input (peer : ℕ) : PublishedEvent := ⟨126, peer, .makerInputs⟩

/-- `Taker::send_unsigned_psbt` (taker.rs:463-489): the unsigned CJ
transaction at kind 127. -/
def send_unsigned_psbt (peer : ℕ) : PublishedEvent := ⟨127, peer, .unsignedCJ⟩

/-- `send_signed_psbt` (utils.rs:120-146): the signed CJ at kind 128. -/
def send_signed_psbt (peer : ℕ) : PublishedEvent := ⟨128, peer, .signedCJ⟩

/-- The subscription-filter kinds the receiving loops ask the relay for:
fills (maker.rs:186), maker inputs (taker.rs:175), the unsigned transaction
(maker.rs:292) and signed psbts (taker.rs:88). -/
def get_fill_offer_filter_kind : ℕ := 20125

def get_peer_inputs_filter_kind : ℕ := 20126

def get_unsigned_cj_filter_kind : ℕ := 20127

def get_signed_peer_psbts_filter_kind : ℕ := 20128

/-! ## The Maker's wait for the unsigned transaction
(maker.rs Maker::get_unsigned_cj_transaction) -/

/-- An already-decrypted inbound relay event as the Maker loop sees it. -/
structure MEvent : Type where
  kind : ℕ
  pTagMatches : Bool
  msg : Option ℕ
  deriving DecidableEq

/-- The per-event test of maker.rs:311-324: kind 20127, addressed to me, and
an UnsignedCJ payload (`msg = some tx`). -/
def evUnsigned (ev : MEvent) : Option ℕ :=
  if ev.kind = 20127 && ev.pTagMatches then ev.msg else none

/-- The timeout guard at maker.rs:329, verbatim:
`started_waiting.gt(&(started_waiting + 300))`. -/
def timeout_guard (started_waiting : ℕ) : Bool := started_waiting + 300 < started_waiting

/-- `Maker::get_unsigned_cj_transaction` (maker.rs:288-333) driven by a
finite prefix of `next_data` batches: scan each batch for a matching
UnsignedCJ, then test the timeout guard; an exhausted stream (`.ok none`)
models the loop still blocking on the relay. -/
def get_unsigned_cj_transaction (started_waiting : ℕ) :
    List (List MEvent) → Except Err (Option ℕ)
  | [] => .ok none
  | batch :: rest =>
    match batch.findSome? evUnsigned with
    | some tx => .ok (some tx)
    | none =>
      if timeout_guard started_waiting then .error .takerFailedToSendTransaction
      else get_unsigned_cj_transaction started_waiting rest

/-! ## Offer selection (taker.rs Taker::get_peer_inputs, lines 145-150) -/

/-- NostrdizerOffer (types.rs:28-35), with the maker keyed numerically. -/
structure NostrdizerOffer : Type where
  maker : ℕ
  oid : ℕ
  txfee : ℕ
  cjfee : ℕ
  deriving DecidableEq

/-- Stable insertion into a cjfee-sorted list (keeps existing equal keys in
front, like Rust's stable `sort_by_key`). -/
def insertSorted (o : NostrdizerOffer) : List NostrdizerOffer → List NostrdizerOffer
  | [] => [o]
  | x :: rest => if o.cjfee < x.cjfee then o :: x :: rest else x :: insertSorted o rest

/-- `matching_offers.sort_by_key(|o| o.cjfee)` as a stable insertion sort. -/
def sortByCjfee (l : List NostrdizerOffer) : List NostrdizerOffer :=
  l.foldl (fun acc o => insertSorted o acc) []

/-- taker.rs:145-150: sort by cjfee, collect the set of maker keys, then
`retain(|o| unique_makers.contains(&o.maker))`. -/
def get_peer_inputs_selection (matching_offers : List NostrdizerOffer) :
    List NostrdizerOffer :=
  let sorted := sortByCjfee matching_offers
  sorted.filter fun o => sorted.any fun p => p.maker = o.maker

/-! ## PSBT combination (bdk/taker.rs and bitcoincore/taker.rs
Taker::combine_psbts) -/

/-- A partially signed transaction: the unsigned transaction's identity and
its partial signatures (input index ↦ signature value). -/
structure Psbt : Type where
  tx : ℕ
  sigs : List (ℕ × ℕ)
  deriving DecidableEq

/-- Modelled from the spec (§4.4 Combine): merging partial PSBTs — external
library/RPC behaviour in the source — requires the same underlying
transaction; duplicate inputs with identical witness data are idempotent;
conflicting witnesses are an error. -/
def psbtCombine (a b : Psbt) : Except Err Psbt :=
  if a.tx ≠ b.tx ∨
      a.sigs.any (fun kv => b.sigs.any fun kv2 => kv2.1 = kv.1 && kv2.2 ≠ kv.2) then
    .error .combineConflict
  else
    .ok ⟨a.tx, a.sigs ++ b.sigs.filter fun kv => !(a.sigs.any fun kv2 => kv2.1 = kv.1)⟩

/-- The bdk fold (bdk/taker.rs:106-114): `acc.combine(x).unwrap()` — a
combine failure is a panic, not an error return. -/
def combineFold : List Psbt → Psbt → Except Err Psbt
  | [], acc => .ok acc
  | x :: rest, acc =>
    match psbtCombine acc x with
    | .ok acc2 => combineFold rest acc2
    | .error _ => .error .panicked

/-- `Taker::combine_psbts` (bdk/taker.rs:93-116): pop the LAST psbt as the
initial accumulator (panicking on an empty list via
`ok_or_else(|| panic!()).unwrap()`), then fold the rest in order. -/
def combine_psbts : List Psbt → Except Err Psbt
  | [] => .error .panicked
  | p :: rest =>
    match (p :: rest).getLast? with
    | none => .error .panicked
    | some init => combineFold (p :: rest).dropLast init

/-- The RPC fold of `join_psbt`, whose failures surface as errors (`?`). -/
def combineFoldE : List Psbt → Psbt → Except Err Psbt
  | [], acc => .ok acc
  | x :: rest, acc => do combineFoldE rest (← psbtCombine acc x)

/-- `Taker::combine_psbts` (bitcoincore/taker.rs:222-234): delegate to the
`join_psbt` RPC when more than one psbt, else `psbts[0].clone()` — an
out-of-bounds index panic on the empty list. -/
def core_combine_psbts (psbts : List Psbt) : Except Err Psbt :=
  if 1 < psbts.length then
    match psbts with
    | p :: rest => combineFoldE rest p
    | [] => .error .panicked
  else
    match psbts with
    | [] => .error .panicked
    | p :: _ => .ok p

/-- All signatures of a list of psbts. -/
def allSigs (ps : List Psbt) : List (ℕ × ℕ) := (ps.map Psbt.sigs).flatten

/-- A signature pool with no conflicting assignments. -/
def consistentSigs (S : List (ℕ × ℕ)) : Prop :=
  ∀ kv ∈ S, ∀ kv2 ∈ S, kv.1 = kv2.1 → kv.2 = kv2.2

/-- A concrete digest function used for counterexamples: constant 0. -/
def hashZero : List ℕ → ℕ := fun _ => 0

/-- A concrete digest function used for witnesses: constant `2^249`, whose
value and negation mod `nOrder` both occupy exactly 32 bytes. -/
def hashBig : List ℕ → ℕ := fun _ => 2 ^ 249

/-- Concrete commitment used in the C3 counterexample: `commit = 1` differs
from the fill commitment 0, `SHA256(P2)` (under `hashZero`) matches it. -/
def acCex : AuthCommitment :=
  { p := pG, p2 := pG, commit := 1, sig := 5, e := 0 }

/-- The commitment `generate_podle hashBig 0 1 1` produces (used as witness). -/
def acWitness : AuthCommitment :=
  { p := smul 1 pG, p2 := smul 1 (nums 0), commit := 2 ^ 249,
    sig := (1 + 1 * 2 ^ 249) % nOrder, e := 2 ^ 249 }

instance : NeZero nOrder := ⟨by decide⟩

theorem nOrder_pos : 0 < nOrder := by decide

theorem nOrder_lt_two_pow : nOrder < 2 ^ 256 := by norm_num [nOrder]

theorem ebind_ok {α β : Type} (a : α) (f : α → Except Err β) :
    (Except.ok a >>= f) = f a := rfl

theorem ebind_err {α β : Type} (e : Err) (f : α → Except Err β) :
    ((Except.error e : Except Err α) >>= f) = Except.error e := rfl

theorem byteLenF_spec : ∀ (fuel x m : ℕ), x ≤ fuel → 256 ^ m ≤ x →
    x < 256 ^ (m + 1) → byteLenF fuel x = m + 1 := by
  intro fuel
  induction fuel with
  | zero =>
    intro x m hx h1 h2
    have := Nat.one_le_pow m 256 (by norm_num)
    omega
  | succ fuel ih =>
    intro x m hx h1 h2
    have hxpos : x ≠ 0 := by
      have := Nat.one_le_pow m 256 (by norm_num)
      omega
    simp only [byteLenF]
    rw [if_neg hxpos]
    cases m with
    | zero =>
      have hz : x / 256 = 0 := Nat.div_eq_of_lt (by simpa using h2)
      rw [hz]
      cases fuel <;> simp [byteLenF]
    | succ m' =>
      have hd1 : 256 ^ m' ≤ x / 256 := by
        rw [Nat.le_div_iff_mul_le (by norm_num)]
        calc 256 ^ m' * 256 = 256 ^ (m' + 1) := by ring
          _ ≤ x := h1
      have hd2 : x / 256 < 256 ^ (m' + 1) := by
        rw [Nat.div_lt_iff_lt_mul (by norm_num)]
        calc x < 256 ^ (m' + 2) := h2
          _ = 256 ^ (m' + 1) * 256 := by ring
      have hxf : x / 256 ≤ fuel := by
        have : x / 256 < x := Nat.div_lt_self (by omega) (by norm_num)
        omega
      rw [ih (x / 256) m' hxf hd1 hd2]

theorem byteLen_eq_32 {x : ℕ} (h1 : 2 ^ 248 ≤ x) (h2 : x < 2 ^ 256) :
    byteLen x = 32 := by
  have e1 : (256 : ℕ) ^ 31 = 2 ^ 248 := by norm_num
  have e2 : (256 : ℕ) ^ 32 = 2 ^ 256 := by norm_num
  exact byteLenF_spec x x 31 le_rfl (e1 ▸ h1) (by rw [show 31 + 1 = 32 from rfl, e2]; exact h2)

theorem natCast_ne_zero_of_lt {x : ℕ} (h1 : 1 ≤ x) (h2 : x < nOrder) :
    (x : Scalar) ≠ 0 := by
  rw [Ne, ZMod.natCast_zmod_eq_zero_iff_dvd]
  intro hdvd
  exact absurd (Nat.le_of_dvd (by omega) hdvd) (by omega)

theorem negMod_cast (e : ℕ) : ((negMod e nOrder : ℕ) : Scalar) = -(e : Scalar) := by
  unfold negMod
  rw [ZMod.natCast_mod, Nat.cast_sub (le_of_lt (Nat.mod_lt _ nOrder_pos))]
  rw [ZMod.natCast_self, ZMod.natCast_mod]
  ring

theorem negMod_lt (e : ℕ) : negMod e nOrder < nOrder := Nat.mod_lt _ nOrder_pos

theorem smul_basis_ne_zero {c : ℕ} (i : Fin 257) (hc : (c : Scalar) ≠ 0) :
    smul c (basis i) ≠ zeroPt := by
  intro h
  have := congrFun h i
  simp [smul, basis, zeroPt] at this
  exact hc this

theorem smul_pG_ne_zero {c : ℕ} (hc : (c : Scalar) ≠ 0) : smul c pG ≠ zeroPt :=
  smul_basis_ne_zero 0 hc

theorem smul_nums_ne_zero {c : ℕ} (i : Fin 256) (hc : (c : Scalar) ≠ 0) :
    smul c (nums i) ≠ zeroPt :=
  smul_basis_ne_zero _ hc

theorem mem_idxList_self (index : Fin 256) : index ∈ idxList index := by
  unfold idxList
  exact List.mem_map.mpr ⟨⟨index.val, Nat.lt_succ_self _⟩, List.mem_finRange _, Fin.ext rfl⟩

theorem bind_ne_error {α β : Type} {x : Except Err α} {f : α → Except Err β} {er : Err}
    (h1 : x ≠ .error er) (h2 : ∀ a, f a ≠ .error er) : (x >>= f) ≠ .error er := by
  cases x with
  | error e => simpa [ebind_err] using h1
  | ok a => simpa [ebind_ok] using h2 a

theorem mulTweak_ne_commitment (P : Point) (t : ℕ) :
    mulTweak P t ≠ .error .podleCommitment := by
  unfold mulTweak; split <;> simp

theorem pcombine_ne_commitment (P Q : Point) :
    pcombine P Q ≠ .error .podleCommitment := by
  unfold pcombine; split <;> simp

theorem verifyLoop_ne_commitment (H : List ℕ → ℕ) (p p2 sG : Point) (sg e : ℕ)
    (L : List (Fin 256)) :
    verifyLoop H p p2 sG sg e L ≠ .error .podleCommitment := by
  induction L with
  | nil => simp [verifyLoop]
  | cons i rest ih =>
    simp only [verifyLoop]
    apply bind_ne_error (mulTweak_ne_commitment _ _)
    intro sJ
    split
    · simp
    · apply bind_ne_error (mulTweak_ne_commitment _ _)
      intro ePNeg
      apply bind_ne_error (mulTweak_ne_commitment _ _)
      intro eP2Neg
      apply bind_ne_error (pcombine_ne_commitment _ _)
      intro kG
      apply bind_ne_error (pcombine_ne_commitment _ _)
      intro kJ
      split
      · simp
      · exact ih

theorem verifyLoop_roundtrip_ok (H : List ℕ → ℕ) (index : Fin 256) (sk k e₀ : ℕ)
    (hsk1 : 1 ≤ sk) (hskn : sk < nOrder) (hk1 : 1 ≤ k) (hkn : k < nOrder)
    (hsig : 2 ^ 248 ≤ (k + sk * e₀) % nOrder)
    (hneg : 2 ^ 248 ≤ negMod e₀ nOrder)
    (hE : e₀ = H (serializeP (smul k pG) ++ serializeP (smul k (nums index)) ++
      serializeP (smul sk pG) ++ serializeP (smul sk (nums index)))) :
    ∀ L : List (Fin 256), index ∈ L →
      verifyLoop H (smul sk pG) (smul sk (nums index))
        (smul ((k + sk * e₀) % nOrder) pG) ((k + sk * e₀) % nOrder) e₀ L = .ok () := by
  have hsiglt : (k + sk * e₀) % nOrder < nOrder := Nat.mod_lt _ nOrder_pos
  have hsigpos : 1 ≤ (k + sk * e₀) % nOrder := le_trans (by norm_num) hsig
  have hsigmod : ((k + sk * e₀) % nOrder) % nOrder = (k + sk * e₀) % nOrder :=
    Nat.mod_eq_of_lt hsiglt
  have hneglt : negMod e₀ nOrder < nOrder := negMod_lt e₀
  have hnegpos : 1 ≤ negMod e₀ nOrder := le_trans (by norm_num) hneg
  have hnegmod : negMod e₀ nOrder % nOrder = negMod e₀ nOrder := Nat.mod_eq_of_lt hneglt
  have hblen : byteLen (negMod e₀ nOrder) = 32 :=
    byteLen_eq_32 hneg (lt_trans hneglt nOrder_lt_two_pow)
  have hkne : (k : Scalar) ≠ 0 := natCast_ne_zero_of_lt hk1 hkn
  have hsigne : ((k + sk * e₀) % nOrder : Scalar) ≠ 0 := natCast_ne_zero_of_lt hsigpos hsiglt
  have hcoef : (((k + sk * e₀) % nOrder : ℕ) : Scalar) +
      ((negMod e₀ nOrder : ℕ) : Scalar) * (sk : Scalar) = (k : Scalar) := by
    rw [ZMod.natCast_mod, negMod_cast]
    push_cast
    ring
  have hkG : padd (smul ((k + sk * e₀) % nOrder) pG)
      (smul (negMod e₀ nOrder) (smul sk pG)) = smul k pG := by
    funext j
    show (((k + sk * e₀) % nOrder : ℕ) : Scalar) * pG j +
      ((negMod e₀ nOrder : ℕ) : Scalar) * ((sk : Scalar) * pG j) = (k : Scalar) * pG j
    calc (((k + sk * e₀) % nOrder : ℕ) : Scalar) * pG j +
        ((negMod e₀ nOrder : ℕ) : Scalar) * ((sk : Scalar) * pG j)
        = ((((k + sk * e₀) % nOrder : ℕ) : Scalar) +
            ((negMod e₀ nOrder : ℕ) : Scalar) * (sk : Scalar)) * pG j := by ring
      _ = (k : Scalar) * pG j := by rw [hcoef]
  have hkJ : padd (smul ((k + sk * e₀) % nOrder) (nums index))
      (smul (negMod e₀ nOrder) (smul sk (nums index))) = smul k (nums index) := by
    funext j
    show (((k + sk * e₀) % nOrder : ℕ) : Scalar) * nums index j +
      ((negMod e₀ nOrder : ℕ) : Scalar) * ((sk : Scalar) * nums index j) =
        (k : Scalar) * nums index j
    calc (((k + sk * e₀) % nOrder : ℕ) : Scalar) * nums index j +
        ((negMod e₀ nOrder : ℕ) : Scalar) * ((sk : Scalar) * nums index j)
        = ((((k + sk * e₀) % nOrder : ℕ) : Scalar) +
            ((negMod e₀ nOrder : ℕ) : Scalar) * (sk : Scalar)) * nums index j := by ring
      _ = (k : Scalar) * nums index j := by rw [hcoef]
  intro L hL
  induction L with
  | nil => cases hL
  | cons i rest ih =>
    simp only [verifyLoop]
    rw [show mulTweak (nums i) ((k + sk * e₀) % nOrder) =
      .ok (smul ((k + sk * e₀) % nOrder) (nums i)) by
        unfold mulTweak
        rw [hsigmod, if_neg (by omega)]]
    rw [ebind_ok]
    rw [if_neg (fun hne => hne hblen)]
    rw [show mulTweak (smul sk pG) (negMod e₀ nOrder) =
      .ok (smul (negMod e₀ nOrder) (smul sk pG)) by
        unfold mulTweak; rw [hnegmod, if_neg (by omega)]]
    rw [ebind_ok]
    rw [show mulTweak (smul sk (nums index)) (negMod e₀ nOrder) =
      .ok (smul (negMod e₀ nOrder) (smul sk (nums index))) by
        unfold mulTweak; rw [hnegmod, if_neg (by omega)]]
    rw [ebind_ok]
    rw [show pcombine (smul ((k + sk * e₀) % nOrder) pG)
      (smul (negMod e₀ nOrder) (smul sk pG)) = .ok (smul k pG) by
        unfold pcombine; rw [hkG, if_neg (smul_pG_ne_zero hkne)]]
    rw [ebind_ok]
    by_cases hi : i = index
    · subst hi
      rw [show pcombine (smul ((k + sk * e₀) % nOrder) (nums i))
        (smul (negMod e₀ nOrder) (smul sk (nums i))) = .ok (smul k (nums i)) by
          unfold pcombine; rw [hkJ, if_neg (smul_nums_ne_zero i hkne)]]
      rw [ebind_ok]
      rw [if_pos hE.symm]
    · have hmem : i ∈ idxList i := mem_idxList_self i
      have hkJi : padd (smul ((k + sk * e₀) % nOrder) (nums i))
          (smul (negMod e₀ nOrder) (smul sk (nums index))) ≠ zeroPt := by
        intro hz
        have hz1 := congrFun hz ⟨i.val + 1, by omega⟩
        have hnz : nums index ⟨i.val + 1, by omega⟩ = 0 := by
          unfold nums basis
          rw [if_neg]
          intro hcontra
          exact hi (Fin.ext (by simpa using congrArg Fin.val hcontra))
        have hiz : nums i ⟨i.val + 1, by omega⟩ = 1 := by
          unfold nums basis
          rw [if_pos rfl]
        rw [show (zeroPt ⟨i.val + 1, by omega⟩) = 0 from rfl] at hz1
        change (((k + sk * e₀) % nOrder : ℕ) : Scalar) * nums i ⟨i.val + 1, by omega⟩ +
          ((negMod e₀ nOrder : ℕ) : Scalar) *
            ((sk : Scalar) * nums index ⟨i.val + 1, by omega⟩) = 0 at hz1
        rw [hnz, hiz] at hz1
        simp at hz1
        exact hsigne (by rw [ZMod.natCast_mod]; push_cast; exact hz1)
      rw [show pcombine (smul ((k + sk * e₀) % nOrder) (nums i))
        (smul (negMod e₀ nOrder) (smul sk (nums index))) =
          .ok (padd (smul ((k + sk * e₀) % nOrder) (nums i))
            (smul (negMod e₀ nOrder) (smul sk (nums index)))) by
          unfold pcombine; rw [if_neg hkJi]]
      rw [ebind_ok]
      split
      · rfl
      · exact ih (by
          cases hL with
          | head => exact absurd rfl hi
          | tail _ hmem2 => exact hmem2)

/-- Claim C1, counterexample: with the digest model `hashZero` and
`sk = k = 1` (both in `[1, n)`), the freshly generated commitment fails its
own verification: `sig = (k + sk·e) mod n = 1` is emitted with a one-byte
minimal big-endian encoding, and `SecretKey::from_slice` inside
`verify_podle` rejects any encoding that is not exactly 32 bytes.  The claim
asserts `Ok(())` for every `k` in `[1, n)`. -/
theorem podle_roundtrip_counterexample :
    (generate_podle hashZero 0 1 1 >>= fun ac =>
      verify_podle hashZero 0 ac ac.commit) = .error .secp := by rfl

/-- Claim C1 (corrected): the PoDLE round trip
`verify_podle index (generate_podle index sk) its-commit = Ok` holds for every
NUMS index, every valid secret key `sk` and every randomness `k` in `[1, n)`
SUCH THAT the signature scalar `(k + sk·e) mod n` and the negated digest
`(−e) mod n` both occupy exactly 32 bytes (are at least `2^248`): the source
serializes `sig` minimally but `verify_podle` demands exactly 32 bytes, and
`encode((−e) mod n)` is force-cast to a 32-byte array. -/
theorem podle_roundtrip_amended (H : List ℕ → ℕ) (index : Fin 256) (sk k : ℕ)
    (ac : AuthCommitment)
    (hsk1 : 1 ≤ sk) (hskn : sk < nOrder) (hk1 : 1 ≤ k) (hkn : k < nOrder)
    (hgen : generate_podle H index sk k = .ok ac)
    (hsig : 2 ^ 248 ≤ ac.sig) (hneg : 2 ^ 248 ≤ negMod ac.e nOrder) :
    verify_podle H index ac ac.commit = .ok () := by
  have hkm : k % nOrder = k := Nat.mod_eq_of_lt hkn
  have hskm : sk % nOrder = sk := Nat.mod_eq_of_lt hskn
  simp only [generate_podle] at hgen
  rw [if_neg (by omega)] at hgen
  rw [show mulTweak (nums index) k = .ok (smul k (nums index)) by
    unfold mulTweak; rw [hkm, if_neg (by omega)]] at hgen
  rw [ebind_ok] at hgen
  rw [if_neg (by omega)] at hgen
  injection hgen with hgen
  subst hgen
  have hsig2 : 2 ^ 248 ≤
      (k + sk * H (serializeP (smul k pG) ++ serializeP (smul k (nums index)) ++
        serializeP (smul sk pG) ++ serializeP (smul sk (nums index)))) % nOrder := hsig
  have hneg2 : 2 ^ 248 ≤
      negMod (H (serializeP (smul k pG) ++ serializeP (smul k (nums index)) ++
        serializeP (smul sk pG) ++ serializeP (smul sk (nums index)))) nOrder := hneg
  have hlt : (k + sk * H (serializeP (smul k pG) ++ serializeP (smul k (nums index)) ++
      serializeP (smul sk pG) ++ serializeP (smul sk (nums index)))) % nOrder < nOrder :=
    Nat.mod_lt _ nOrder_pos
  have hpow : 1 ≤ 2 ^ 248 := Nat.one_le_pow _ _ (by norm_num)
  have hb : toBytesBeLen ((k + sk * H (serializeP (smul k pG) ++
      serializeP (smul k (nums index)) ++ serializeP (smul sk pG) ++
      serializeP (smul sk (nums index)))) % nOrder) = 32 := by
    unfold toBytesBeLen
    rw [byteLen_eq_32 hsig2 (lt_trans hlt nOrder_lt_two_pow)]
    decide
  simp only [verify_podle]
  rw [if_neg (fun h => h.2 rfl)]
  rw [if_neg (by push_neg; exact ⟨hb, by omega, by omega⟩)]
  exact verifyLoop_roundtrip_ok H index sk k _ hsk1 hskn hk1 hkn hsig2 hneg2 rfl
    (idxList index) (mem_idxList_self index)

/-- Witness for the amended C1 theorem: `H = hashBig`, `index = 0`,
`sk = k = 1` satisfy all hypotheses and the round trip verifies. -/
theorem podle_roundtrip_amended_witness :
    verify_podle hashBig 0 acWitness acWitness.commit = .ok () :=
  podle_roundtrip_amended hashBig 0 1 1 acWitness (by decide) (by decide)
    (by decide) (by decide) rfl
    (by show 2 ^ 248 ≤ (1 + 1 * 2 ^ 249) % nOrder
        rw [Nat.mod_eq_of_lt (by norm_num [nOrder])]
        norm_num)
    (by show 2 ^ 248 ≤ negMod (2 ^ 249) nOrder
        unfold negMod
        rw [Nat.mod_eq_of_lt (by norm_num [nOrder]),
          Nat.mod_eq_of_lt (by norm_num [nOrder])]
        norm_num [nOrder])

/-- Claim C3, counterexample: an AuthCommitment whose `commit` field (= 1)
differs from the fill commitment (= 0) while `SHA256(P2)` equals it is NOT
rejected with the commitment-mismatch error — podle.rs:145 joins the two
mismatch tests with `&&`, so it proceeds to the signature parse (which in
this instance fails with a different, secp error). -/
theorem podle_commit_guard_counterexample :
    acCex.commit ≠ 0 ∧ verify_podle hashZero 0 acCex 0 ≠ .error .podleCommitment := by
  constructor
  · decide
  · rw [show verify_podle hashZero 0 acCex 0 = .error .secp from rfl]
    intro h
    exact absurd (Except.error.inj h) (by decide)

/-- Claim C3 (corrected): `verify_podle` returns the commitment-mismatch
error exactly when BOTH `SHA256(P2) ≠ fill_commitment` AND
`commit ≠ fill_commitment`; if either digest equals the fill commitment it
proceeds past the check (podle.rs:145 uses `&&`, not `||`). -/
theorem podle_commit_guard_amended (H : List ℕ → ℕ) (index : Fin 256)
    (ac : AuthCommitment) (fill : ℕ) :
    verify_podle H index ac fill = .error .podleCommitment ↔
      (H (serializeP ac.p2) ≠ fill ∧ ac.commit ≠ fill) := by
  unfold verify_podle
  split
  · next hcond => exact iff_of_true rfl hcond
  · next hcond =>
    split
    · next =>
      constructor
      · intro h
        exact absurd (Except.error.inj h) (by decide)
      · intro h
        exact absurd h hcond
    · next =>
      constructor
      · intro h
        exact absurd h (verifyLoop_ne_commitment _ _ _ _ _ _ _)
      · intro h
        exact absurd h hcond

theorem numsCheckRange_sound {lo hi : ℕ} (h : numsCheckRange lo hi = true) :
    ∀ i : ℕ, lo ≤ i → i < hi → get_nums i = .ok (PRECOMPUTEDNUMS.get! i) := by
  intro i h1 h2
  have hmem : i ∈ (List.range (hi - lo)).map (· + lo) :=
    List.mem_map.mpr ⟨i - lo, List.mem_range.mpr (by omega), by omega⟩
  have hp := List.all_eq_true.mp h _ hmem
  cases hg : get_nums i with
  | error er => rw [hg] at hp; cases hp
  | ok x =>
    rw [hg] at hp
    simp only [beq_iff_eq] at hp
    rw [hp]

set_option maxRecDepth 40000 in
/-- Claim C2, counterexample: the bitcoincore economic verifier's Taker role
performs NO maximum-fee rejection.  With send amount 100000 and a
transaction paying 100000 sats of mining fee — far above
floor(100000·0.15) = 15000 — it still returns Ok (with a verified flag),
not an error, contradicting the claim that verification rejects whenever
input_total − output_total > floor(A·MAX_FEE). -/
theorem verify_transaction_maxfee_counterexample :
    verify_transaction 100000 (.taker ⟨10000, ⟨3, 10⟩⟩ ⟨10000, ⟨1, 5⟩⟩) 200000 0 100000 0 =
      .ok ⟨100000, -100000, false⟩ ∧ 100000 * 3 / 20 < 200000 - 100000 :=
  ⟨rfl, by decide⟩

/-- Claim C2 (corrected).  For totals free of i64 overflow and with
`output_total ≤ input_total` (otherwise Amount subtraction panics):
(1) the bitcoincore Maker verifier returns `verified` exactly per the spec
condition (ratio computed in 64-bit floating point, max-size bound only when
configured); (2) the bitcoincore Taker verifier ALWAYS returns Ok with the
spec's flag — it has no MAX_FEE rejection; (3) only the BDK Taker verifier
rejects with FeesTooHigh, and it does so exactly when
`input_total − output_total` exceeds `(A as f32 * 0.15f32).floor() as u64`
(32-bit float arithmetic, not the exact floor(A·0.15)). -/
theorem verify_transaction_amended :
    (∀ (A : ℕ) (cj : CJFee) (mins : ℕ) (maxs : Option ℕ) (iv miv ov mov : ℕ),
      ov ≤ iv → iv - ov < 2 ^ 63 → miv < 2 ^ 63 → mov < 2 ^ 63 → cj.abs_fee < 2 ^ 63 →
      verify_transaction A (.maker cj mins maxs) iv miv ov mov =
        .ok ⟨((iv - ov : ℕ) : ℤ), (mov : ℤ) - (miv : ℤ),
             makerVerifiedSpec cj mins maxs A (miv : ℤ) (mov : ℤ)⟩) ∧
    (∀ (A : ℕ) (cj : CJFee) (mm : MaxMineingFee) (iv miv ov mov : ℕ),
      ov ≤ iv → iv - ov < 2 ^ 63 → miv < 2 ^ 63 → mov < 2 ^ 63 → cj.abs_fee < 2 ^ 63 →
      mm.abs_fee < 2 ^ 63 →
      verify_transaction A (.taker cj mm) iv miv ov mov =
        .ok ⟨((iv - ov : ℕ) : ℤ), (miv : ℤ) - (mov : ℤ) - ((iv - ov : ℕ) : ℤ),
             takerVerifiedSpec cj mm A (miv : ℤ) (mov : ℤ) ((iv - ov : ℕ) : ℤ)⟩) ∧
    (∀ (A : ℕ) (cj : CJFee) (mm : MaxMineingFee) (iv miv ov mov : ℕ),
      ov ≤ iv → iv - ov < 2 ^ 63 → miv < 2 ^ 63 → mov < 2 ^ 63 → cj.abs_fee < 2 ^ 63 →
      mm.abs_fee < 2 ^ 63 →
      bdk_verify_transaction A cj mm iv miv ov mov =
        if Int.toNat (f32mul (f32n A) MAX_FEE).floor < iv - ov then .error .feesTooHigh
        else .ok ⟨((iv - ov : ℕ) : ℤ), (miv : ℤ) - (mov : ℤ) - ((iv - ov : ℕ) : ℤ),
             takerVerifiedSpec cj mm A (miv : ℤ) (mov : ℤ) ((iv - ov : ℕ) : ℤ)⟩) := by
  refine ⟨?_, ?_, ?_⟩
  · intro A cj mins maxs iv miv ov mov h0 h1 h2 h3 h4
    simp only [verify_transaction, toSigned]
    rw [if_neg (by omega), if_pos h1, ebind_ok, if_pos h3, ebind_ok, if_pos h2, ebind_ok,
      if_pos h4, ebind_ok]
    rfl
  · intro A cj mm iv miv ov mov h0 h1 h2 h3 h4 h5
    simp only [verify_transaction, toSigned]
    rw [if_neg (by omega), if_pos h1, ebind_ok, if_pos h2, ebind_ok, if_pos h3, ebind_ok,
      if_pos h4, ebind_ok, if_pos h5, ebind_ok]
    rfl
  · intro A cj mm iv miv ov mov h0 h1 h2 h3 h4 h5
    simp only [bdk_verify_transaction, toSigned]
    rw [if_neg (by omega), if_pos h1, ebind_ok, if_pos h2, ebind_ok, if_pos h3, ebind_ok,
      if_pos h4, ebind_ok]
    by_cases hc : Int.toNat (f32mul (f32n A) MAX_FEE).floor < iv - ov
    · rw [if_pos hc, if_pos hc]
    · rw [if_neg hc, if_neg hc, if_pos h5, ebind_ok]
      rfl

/-- Witness for the amended C2 theorem: the BDK verifier rejects a
transaction whose fee (100000 sats) exceeds the f32 threshold (15000). -/
theorem verify_transaction_amended_witness :
    bdk_verify_transaction 100000 ⟨10000, ⟨3, 10⟩⟩ ⟨10000, ⟨1, 5⟩⟩ 200000 0 100000 0 =
      .error .feesTooHigh := by
  have h := verify_transaction_amended.2.2 100000 ⟨10000, ⟨3, 10⟩⟩ ⟨10000, ⟨1, 5⟩⟩
    200000 0 100000 0 (by decide) (by decide) (by decide) (by decide) (by decide) (by decide)
  rw [h, if_pos (by decide)]

theorem insertOut_mem (m : List (ℕ × ℕ)) (k v : ℕ) :
    ∀ kv ∈ insertOut m k v, kv ∈ m ∨ kv = (k, v) := by
  intro kv hkv
  unfold insertOut at hkv
  split at hkv
  · obtain ⟨kv0, hkv0, heq⟩ := List.mem_map.mp hkv
    by_cases hk : kv0.1 = k
    · rw [if_pos hk] at heq
      exact Or.inr heq.symm
    · rw [if_neg hk] at heq
      exact Or.inl (heq ▸ hkv0)
  · rcases List.mem_append.mp hkv with h | h
    · exact Or.inl h
    · exact Or.inr (List.mem_singleton.mp h)

theorem makerLoop_dust_inv :
    ∀ (l : List (ℕ × IoAuth)) (A : ℕ) (outs : List (ℕ × ℕ)) (fees : ℕ)
      (outs' : List (ℕ × ℕ)) (fees' : ℕ),
      makerLoop l A outs fees = .ok (outs', fees') → DUST < A →
      (∀ kv ∈ outs, DUST < kv.2) → ∀ kv ∈ outs', DUST < kv.2 := by
  intro l
  induction l with
  | nil =>
    intro A outs fees outs' fees' h hA hP
    simp only [makerLoop, Except.ok.injEq, Prod.mk.injEq] at h
    exact h.1 ▸ hP
  | cons mi rest ih =>
    obtain ⟨cjfee, io⟩ := mi
    intro A outs fees outs' fees' h hA hP
    simp only [makerLoop] at h
    split at h
    · cases h
    · refine ih A _ _ outs' fees' h hA ?_
      intro kv hkv
      split at hkv
      · rename_i hdc
        rcases insertOut_mem _ _ _ _ hkv with h2 | h2
        · rcases insertOut_mem _ _ _ _ h2 with h3 | h3
          · exact hP kv h3
          · rw [h3]; exact hA
        · rw [h2]; exact hdc
      · rcases insertOut_mem _ _ _ _ hkv with h3 | h3
        · exact hP kv h3
        · rw [h3]; exact hA

theorem makerLoopND_inv (S : List ℕ) :
    ∀ (l : List (ℕ × IoAuth)) (A : ℕ) (outs : List (ℕ × ℕ)) (fees : ℕ)
      (outs' : List (ℕ × ℕ)) (fees' : ℕ),
      makerLoopND l A outs fees = .ok (outs', fees') → DUST < A →
      (∀ mi ∈ l, mi.2.change_address ∈ S) →
      (∀ kv ∈ outs, DUST < kv.2 ∨ kv.1 ∈ S) →
      ∀ kv ∈ outs', DUST < kv.2 ∨ kv.1 ∈ S := by
  intro l
  induction l with
  | nil =>
    intro A outs fees outs' fees' h hA hS hP
    simp only [makerLoopND, Except.ok.injEq, Prod.mk.injEq] at h
    exact h.1 ▸ hP
  | cons mi rest ih =>
    obtain ⟨cjfee, io⟩ := mi
    intro A outs fees outs' fees' h hA hS hP
    simp only [makerLoopND] at h
    split at h
    · cases h
    · refine ih A _ _ outs' fees' h hA
        (fun mi hmi => hS mi (List.mem_cons_of_mem _ hmi)) ?_
      intro kv hkv
      rcases insertOut_mem _ _ _ _ hkv with h2 | h2
      · rcases insertOut_mem _ _ _ _ h2 with h3 | h3
        · exact hP kv h3
        · rw [h3]; exact Or.inl hA
      · rw [h2]
        exact Or.inr (hS (cjfee, io) (List.mem_cons_self _ _))

theorem makerLoop_ok :
    ∀ (l : List (ℕ × IoAuth)) (A : ℕ) (outs : List (ℕ × ℕ)) (fees : ℕ),
      (∀ mi ∈ l, A ≤ mi.2.utxos.foldl (fun a b => a + b) 0) →
      ∃ outs', makerLoop l A outs fees = .ok (outs', fees + totalFees l) := by
  intro l
  induction l with
  | nil =>
    intro A outs fees _
    exact ⟨outs, by simp [makerLoop, totalFees]⟩
  | cons mi rest ih =>
    obtain ⟨cjfee, io⟩ := mi
    intro A outs fees hge
    simp only [makerLoop]
    rw [if_neg (by
      have h := hge (cjfee, io) (List.mem_cons_self _ _)
      simp only at h
      omega)]
    obtain ⟨outs', h⟩ := ih A
      (if DUST < io.utxos.foldl (fun a b => a + b) 0 - A + cjfee then
        insertOut (insertOut outs io.coinjoin_address A) io.change_address
          (io.utxos.foldl (fun a b => a + b) 0 - A + cjfee)
      else insertOut outs io.coinjoin_address A)
      (fees + cjfee) (fun mi hmi => hge mi (List.mem_cons_of_mem _ hmi))
    refine ⟨outs', ?_⟩
    rw [h]
    simp only [totalFees, List.map_cons, List.sum_cons, Nat.add_assoc]

theorem getInputsGo_spec :
    ∀ (l : List ℕ) (amount value : ℕ) (acc : List ℕ), value < amount →
      ∃ n, n ≤ l.length ∧
        getInputsGo l amount value acc = (value + (l.take n).sum, acc.reverse ++ l.take n) ∧
        (amount ≤ value + (l.take n).sum ∨ n = l.length) ∧
        ∀ m < n, value + (l.take m).sum < amount := by
  intro l
  induction l with
  | nil =>
    intro amount value acc hv
    exact ⟨0, Nat.le_refl 0, by simp [getInputsGo], Or.inr rfl,
      fun m hm => absurd hm (Nat.not_lt_zero m)⟩
  | cons v rest ih =>
    intro amount value acc hv
    simp only [getInputsGo]
    by_cases hle : amount ≤ value + v
    · refine ⟨1, Nat.succ_le_succ (Nat.zero_le _), ?_, Or.inl (by simpa using hle), ?_⟩
      · rw [if_pos hle]
        simp
      · intro m hm
        interval_cases m
        simpa using hv
    · rw [if_neg hle]
      obtain ⟨n, hn, heq, hor, hmin⟩ := ih amount (value + v) (v :: acc) (by omega)
      refine ⟨n + 1, by simp only [List.length_cons]; omega, ?_, ?_, ?_⟩
      · rw [heq]
        simp only [List.take_succ_cons, List.sum_cons, List.reverse_cons, List.append_assoc,
          List.singleton_append, Prod.mk.injEq]
        exact ⟨by omega, trivial⟩
      · rcases hor with h | h
        · refine Or.inl ?_
          simp only [List.take_succ_cons, List.sum_cons]
          omega
        · exact Or.inr (by simp [h])
      · intro m hm
        cases m with
        | zero => simpa using hv
        | succ m2 =>
          have := hmin m2 (by omega)
          simp only [List.take_succ_cons, List.sum_cons]
          omega

set_option maxRecDepth 40000 in
/-- Claim C4, counterexample: (1) the bitcoincore create_cj emits the Taker
change output whenever it is merely nonnegative — here 100 sats ≤ 546 dust
appears in the assembled outputs; (2) the generic taker.rs create_cj emits a
Maker change output of 500 sats ≤ 546 with no dust check at all. -/
theorem create_cj_dust_counterexample :
    (create_cj 100000 [(1000, ⟨[150000], 1, 2⟩)] [101600] 3 4 none 0 =
      .ok [(1, 100000), (2, 51000), (3, 100000), (4, 100)] ∧ (100 : ℕ) ≤ DUST) ∧
    (create_cj_taker_rs 100000 [(100, ⟨[100400], 1, 2⟩)] [102000] 3 4 none 0 =
      .ok [(1, 100000), (2, 500), (3, 100000), (4, 1400)] ∧ (500 : ℕ) ≤ DUST) :=
  ⟨⟨rfl, by decide⟩, ⟨rfl, by decide⟩⟩

/-- Claim C4 (corrected): in the bitcoincore create_cj, provided the send
amount A exceeds the dust limit, every output of the assembled map is either
above 546 sats or IS the Taker's own change output (which is emitted
whenever nonnegative, dust included); in the generic taker.rs create_cj the
Maker change outputs may additionally be dust, since they are emitted
unconditionally. -/
theorem create_cj_dust_amended :
    (∀ (A : ℕ) (mk : List (ℕ × IoAuth)) (unspent : List ℕ) (cja cha : ℕ)
      (fee_est : Option ℕ) (vsize : ℕ) (outs : List (ℕ × ℕ)),
      DUST < A →
      create_cj A mk unspent cja cha fee_est vsize = .ok outs →
      ∀ kv ∈ outs, DUST < kv.2 ∨ kv.1 = cha) ∧
    (∀ (A : ℕ) (mk : List (ℕ × IoAuth)) (unspent : List ℕ) (cja cha : ℕ)
      (fee_est : Option ℕ) (vsize : ℕ) (outs : List (ℕ × ℕ)),
      DUST < A →
      create_cj_taker_rs A mk unspent cja cha fee_est vsize = .ok outs →
      ∀ kv ∈ outs, DUST < kv.2 ∨ kv.1 = cha ∨
        kv.1 ∈ mk.map (fun mi => mi.2.change_address)) := by
  constructor
  · intro A mk unspent cja cha fee_est vsize outs hA h kv hkv
    simp only [create_cj] at h
    cases hml : makerLoop mk A [] 0 with
    | error er => rw [hml, ebind_err] at h; cases h
    | ok ml =>
      rw [hml, ebind_ok] at h
      cases h1 : toSigned (get_inputs unspent (A + ml.2 + 500)).1 with
      | error er => rw [h1, ebind_err] at h; cases h
      | ok ti =>
        rw [h1, ebind_ok] at h
        cases h2 : toSigned A with
        | error er => rw [h2, ebind_err] at h; cases h
        | ok sa =>
          rw [h2, ebind_ok] at h
          cases h3 : toSigned ml.2 with
          | error er => rw [h3, ebind_err] at h; cases h
          | ok tf =>
            rw [h3, ebind_ok] at h
            cases h4 : toSigned (miningFeeFinal fee_est vsize) with
            | error er => rw [h4, ebind_err] at h; cases h
            | ok mf =>
              rw [h4, ebind_ok] at h
              split at h
              · cases h
              · injection h with h
                subst h
                rcases insertOut_mem _ _ _ _ hkv with h5 | h5
                · rcases insertOut_mem _ _ _ _ h5 with h6 | h6
                  · rcases insertOut_mem _ _ _ _ h6 with h7 | h7
                    · exact Or.inl (makerLoop_dust_inv mk A [] 0 ml.1 ml.2
                        (by rw [hml]) hA (by simp) kv h7)
                    · rw [h7]; exact Or.inl hA
                  · rw [h6]; exact Or.inr rfl
                · rw [h5]; exact Or.inr rfl
  · intro A mk unspent cja cha fee_est vsize outs hA h kv hkv
    simp only [create_cj_taker_rs] at h
    cases hml : makerLoopND mk A [] 0 with
    | error er => rw [hml, ebind_err] at h; cases h
    | ok ml =>
      rw [hml, ebind_ok] at h
      cases h1 : toSigned (get_inputs unspent (A + ml.2 + 500)).1 with
      | error er => rw [h1, ebind_err] at h; cases h
      | ok ti =>
        rw [h1, ebind_ok] at h
        cases h2 : toSigned A with
        | error er => rw [h2, ebind_err] at h; cases h
        | ok sa =>
          rw [h2, ebind_ok] at h
          cases h3 : toSigned ml.2 with
          | error er => rw [h3, ebind_err] at h; cases h
          | ok tf =>
            rw [h3, ebind_ok] at h
            cases h4 : toSigned (miningFeeFinal fee_est vsize) with
            | error er => rw [h4, ebind_err] at h; cases h
            | ok mf =>
              rw [h4, ebind_ok] at h
              split at h
              · cases h
              · injection h with h
                subst h
                rcases insertOut_mem _ _ _ _ hkv with h5 | h5
                · rcases insertOut_mem _ _ _ _ h5 with h6 | h6
                  · rcases insertOut_mem _ _ _ _ h6 with h7 | h7
                    · rcases makerLoopND_inv (mk.map fun mi => mi.2.change_address)
                        mk A [] 0 ml.1 ml.2 (by rw [hml]) hA
                        (fun mi hmi => List.mem_map.mpr ⟨mi, hmi, rfl⟩) (by simp)
                        kv h7 with h8 | h8
                      · exact Or.inl h8
                      · exact Or.inr (Or.inr h8)
                    · rw [h7]; exact Or.inl hA
                  · rw [h6]; exact Or.inr (Or.inl rfl)
                · rw [h5]; exact Or.inr (Or.inl rfl)

/-- Witness for the amended C4 theorem: in the concrete run the only dust
output, valued 100, is the Taker change address (4). -/
theorem create_cj_dust_amended_witness : DUST < 100 ∨ (4 : ℕ) = 4 :=
  create_cj_dust_amended.1 100000 [(1000, ⟨[150000], 1, 2⟩)] [101600] 3 4 none 0
    [(1, 100000), (2, 51000), (3, 100000), (4, 100)] (by decide) rfl (4, 100) (by decide)

set_option maxRecDepth 40000 in
/-- Claim C8, counterexample: the Taker's greedy selection falls short of the
placeholder target A + fees + 500 (101400 < 101500), yet create_cj succeeds,
because the final mining fee (270) is below the 500-sat placeholder and the
recomputed change (130) is nonnegative. -/
theorem create_cj_insufficient_counterexample :
    (get_inputs [101400] 101500).1 < 101500 ∧
    create_cj 100000 [(1000, ⟨[150000], 1, 2⟩)] [101400] 3 4 (some 1) 270000 =
      .ok [(1, 100000), (2, 51000), (3, 100000), (4, 130)] :=
  ⟨by decide, rfl⟩

/-- Claim C8 (corrected): the Taker's own input selection is greedy — it
takes the shortest prefix of the wallet's utxo list whose sum reaches the
target A + total_maker_fees + 500, or all of them; and create_cj fails with
InsufficientFunds exactly when the recomputed change
taker_in − A − total_maker_fees − mining_fee is negative (a shortfall
against the placeholder target alone does not make it fail). -/
theorem create_cj_insufficient_amended :
    (∀ (unspent : List ℕ) (amount : ℕ), 0 < amount →
      ∃ n, n ≤ unspent.length ∧
        get_inputs unspent amount = ((unspent.take n).sum, unspent.take n) ∧
        (amount ≤ (unspent.take n).sum ∨ n = unspent.length) ∧
        ∀ m < n, (unspent.take m).sum < amount) ∧
    (∀ (A : ℕ) (mk : List (ℕ × IoAuth)) (unspent : List ℕ) (cja cha : ℕ)
      (fee_est : Option ℕ) (vsize : ℕ),
      (∀ mi ∈ mk, A ≤ mi.2.utxos.foldl (fun a b => a + b) 0) →
      (get_inputs unspent (A + totalFees mk + 500)).1 < 2 ^ 63 →
      A < 2 ^ 63 → totalFees mk < 2 ^ 63 → miningFeeFinal fee_est vsize < 2 ^ 63 →
      (create_cj A mk unspent cja cha fee_est vsize = .error .insufficientFunds ↔
        (get_inputs unspent (A + totalFees mk + 500)).1 <
          A + totalFees mk + miningFeeFinal fee_est vsize)) := by
  constructor
  · intro unspent amount hpos
    simpa using getInputsGo_spec unspent amount 0 [] hpos
  · intro A mk unspent cja cha fee_est vsize hge hb1 hb2 hb3 hb4
    obtain ⟨outsml, hml⟩ := makerLoop_ok mk A [] 0 hge
    simp only [create_cj, hml, ebind_ok, toSigned]
    rw [if_pos (by simpa using hb1), ebind_ok, if_pos hb2, ebind_ok,
      if_pos (by simpa using hb3), ebind_ok, if_pos hb4, ebind_ok]
    constructor
    · intro h
      split at h
      · rename_i hneg
        simp only [Nat.zero_add] at hneg ⊢
        omega
      · cases h
    · intro h
      rw [if_pos (by simp only [Nat.zero_add]; omega)]

/-- Witness for the amended C8 theorem: with only 99000 sats of taker
utxos against A = 100000 + 1000 fees + 270 mining, create_cj fails with
InsufficientFunds. -/
theorem create_cj_insufficient_amended_witness :
    create_cj 100000 [(1000, ⟨[150000], 1, 2⟩)] [99000] 3 4 (some 1) 270000 =
      .error .insufficientFunds :=
  (create_cj_insufficient_amended.2 100000 [(1000, ⟨[150000], 1, 2⟩)] [99000] 3 4
    (some 1) 270000 (by decide) (by decide) (by decide) (by decide) (by decide)).mpr
    (by decide)


/-- C5 counterexample: the unsigned CoinJoin is published under kind 127
and the signed one under kind 128, not the wire contract's
TRANSACTION = 129 and SIGNED_TRANSACTION = 130. -/
theorem event_kinds_counterexample :
    (send_unsigned_psbt 7).kind = 127 ∧ TRANSACTION = 129 ∧
      (send_unsigned_psbt 7).kind ≠ TRANSACTION ∧
      (send_signed_psbt 7).kind = 128 ∧ SIGNED_TRANSACTION = 130 ∧
      (send_signed_psbt 7).kind ≠ SIGNED_TRANSACTION := by decide

/-- C5 amended: the senders publish Fill at 125, IoAuth (maker inputs) at
126, the unsigned transaction at 127 and the signed transaction at 128,
each to the named peer; the receiving loops subscribe to exactly
20000 + the corresponding sender kind, so the implementation is
self-consistent even though it disagrees with the types.rs constants. -/
theorem event_kinds_amended :
    (∀ peer, send_fill_offer_message peer = ⟨125, peer, .fill⟩) ∧
    (∀ peer, send_maker_input peer = ⟨126, peer, .makerInputs⟩) ∧
    (∀ peer, send_unsigned_psbt peer = ⟨127, peer, .unsignedCJ⟩) ∧
    (∀ peer, send_signed_psbt peer = ⟨128, peer, .signedCJ⟩) ∧
    get_fill_offer_filter_kind = 20000 + (send_fill_offer_message 0).kind ∧
    get_peer_inputs_filter_kind = 20000 + (send_maker_input 0).kind ∧
    get_unsigned_cj_filter_kind = 20000 + (send_unsigned_psbt 0).kind ∧
    get_signed_peer_psbts_filter_kind = 20000 + (send_signed_psbt 0).kind :=
  ⟨fun _ => rfl, fun _ => rfl, fun _ => rfl, fun _ => rfl, rfl, rfl, rfl, rfl⟩

/-- C7: the guard at maker.rs:329 tests started_waiting > started_waiting
+ 300, which no timestamp satisfies, so the Maker's wait for the unsigned
transaction never returns TakerFailedToSendTransaction however many event
batches pass without a matching UnsignedCJ. -/
theorem maker_timeout_never_fires :
    (∀ t : ℕ, timeout_guard t = false) ∧
    ∀ (t : ℕ) (stream : List (List MEvent)),
      get_unsigned_cj_transaction t stream ≠ .error .takerFailedToSendTransaction := by
  have hg : ∀ t : ℕ, timeout_guard t = false := by
    intro t
    simp only [timeout_guard, decide_eq_false_iff_not]
    omega
  refine ⟨hg, ?_⟩
  intro t stream
  induction stream with
  | nil => simp [get_unsigned_cj_transaction]
  | cons b rest ih =>
    simp only [get_unsigned_cj_transaction]
    cases hfs : b.findSome? evUnsigned with
    | some tx => simp
    | none => simpa [hg t] using ih

/-- C9: the `retain` at taker.rs:150 keeps every offer whose maker appears
in the set of ALL makers, i.e. it filters nothing: the selection equals the
plain cjfee sort, and a concrete pair of offers from the same maker (key 7)
are both retained, contrary to at-most-one-offer-per-maker. -/
theorem dedupe_retains_duplicates :
    (∀ offers, get_peer_inputs_selection offers = sortByCjfee offers) ∧
    get_peer_inputs_selection [⟨7, 1, 0, 20⟩, ⟨7, 2, 0, 10⟩] =
      [⟨7, 2, 0, 10⟩, ⟨7, 1, 0, 20⟩] := by
  constructor
  · intro offers
    simp only [get_peer_inputs_selection]
    rw [List.filter_eq_self]
    intro a ha
    simp only [List.any_eq_true, decide_eq_true_eq]
    exact ⟨a, ha, rfl⟩
  · decide

theorem combineFold_ok (S : List (ℕ × ℕ)) (hS : consistentSigs S) (t : ℕ)
    (ps : List Psbt) :
    ∀ acc : Psbt,
      acc.tx = t → (∀ kv ∈ acc.sigs, kv ∈ S) →
      (∀ q ∈ ps, q.tx = t ∧ ∀ kv ∈ q.sigs, kv ∈ S) →
      (∃ r, combineFold ps acc = .ok r) ∧ ∃ r, combineFoldE ps acc = .ok r := by
  induction ps with
  | nil => exact fun acc _ _ _ => ⟨⟨acc, rfl⟩, ⟨acc, rfl⟩⟩
  | cons x rest ih =>
    intro acc hacc haccS hps
    have hx := hps x (List.mem_cons_self x rest)
    have hmerge : psbtCombine acc x =
        .ok ⟨acc.tx, acc.sigs ++
          x.sigs.filter fun kv => !(acc.sigs.any fun kv2 => kv2.1 = kv.1)⟩ := by
      have hcond : ¬(acc.tx ≠ x.tx ∨
          (acc.sigs.any fun kv =>
            x.sigs.any fun kv2 => kv2.1 = kv.1 && kv2.2 ≠ kv.2) = true) := by
        rintro (h | h)
        · exact h (hacc.trans hx.1.symm)
        · obtain ⟨kv, hkv, h2⟩ := List.any_eq_true.mp h
          obtain ⟨kv2, hkv2, h3⟩ := List.any_eq_true.mp h2
          simp only [Bool.and_eq_true, decide_eq_true_eq] at h3
          exact h3.2 (hS kv2 (hx.2 kv2 hkv2) kv (haccS kv hkv) h3.1)
      unfold psbtCombine
      rw [if_neg hcond]
    have h1 : combineFold (x :: rest) acc = combineFold rest
        ⟨acc.tx, acc.sigs ++
          x.sigs.filter fun kv => !(acc.sigs.any fun kv2 => kv2.1 = kv.1)⟩ := by
      simp only [combineFold, hmerge]
    have h2 : combineFoldE (x :: rest) acc = combineFoldE rest
        ⟨acc.tx, acc.sigs ++
          x.sigs.filter fun kv => !(acc.sigs.any fun kv2 => kv2.1 = kv.1)⟩ := by
      simp only [combineFoldE, hmerge, ebind_ok]
    have hm2 : ∀ kv ∈ (⟨acc.tx, acc.sigs ++
        x.sigs.filter fun kv => !(acc.sigs.any fun kv2 => kv2.1 = kv.1)⟩ : Psbt).sigs,
        kv ∈ S := by
      intro kv hkv
      rcases List.mem_append.mp hkv with h | h
      · exact haccS kv h
      · exact hx.2 kv (List.mem_filter.mp h).1
    have hrest : ∀ q ∈ rest, q.tx = t ∧ ∀ kv ∈ q.sigs, kv ∈ S :=
      fun q hq => hps q (List.mem_cons_of_mem x hq)
    obtain ⟨⟨r1, hr1⟩, ⟨r2, hr2⟩⟩ := ih ⟨acc.tx, acc.sigs ++
      x.sigs.filter fun kv => !(acc.sigs.any fun kv2 => kv2.1 = kv.1)⟩ hacc hm2 hrest
    exact ⟨⟨r1, h1.trans hr1⟩, ⟨r2, h2.trans hr2⟩⟩

/-- C10 counterexample: two partial PSBTs over different unsigned
transactions make `acc.combine(x)` fail, so the unwrap at bdk/taker.rs:111
panics — a combined PSBT is NOT returned for every non-empty list. -/
theorem combine_psbts_counterexample :
    combine_psbts [⟨1, [(0, 5)]⟩, ⟨2, []⟩] = .error .panicked := rfl

/-- C10 amended: both implementations panic (unguarded pop resp. index) on
the empty list; a singleton is returned unchanged; and for a non-empty list
whose psbts share one unsigned transaction and draw their signatures from a
conflict-free pool, both implementations return a combined PSBT. -/
theorem combine_psbts_amended :
    (combine_psbts [] = .error .panicked ∧
      core_combine_psbts [] = .error .panicked) ∧
    (∀ p : Psbt, combine_psbts [p] = .ok p ∧ core_combine_psbts [p] = .ok p) ∧
    ∀ (ps : List Psbt) (t : ℕ), ps ≠ [] → (∀ q ∈ ps, q.tx = t) →
      consistentSigs (allSigs ps) →
      (∃ r, combine_psbts ps = .ok r) ∧ ∃ r, core_combine_psbts ps = .ok r := by
  refine ⟨⟨rfl, rfl⟩, fun p => ⟨rfl, rfl⟩, ?_⟩
  rintro ps t hne hq hS
  have hSmem : ∀ q ∈ ps, q.tx = t ∧ ∀ kv ∈ q.sigs, kv ∈ allSigs ps := by
    intro q hqm
    refine ⟨hq q hqm, fun kv hkv => ?_⟩
    simp only [allSigs, List.mem_flatten, List.mem_map]
    exact ⟨q.sigs, ⟨q, hqm, rfl⟩, hkv⟩
  rcases ps with _ | ⟨p, rest⟩
  · exact absurd rfl hne
  constructor
  · have hgl := List.getLast?_eq_getLast (p :: rest) (by simp)
    obtain ⟨r, hr⟩ := (combineFold_ok (allSigs (p :: rest)) hS t
        (p :: rest).dropLast ((p :: rest).getLast (by simp))
        (hSmem _ (List.getLast_mem _)).1 (hSmem _ (List.getLast_mem _)).2
        (fun q hqm => hSmem q (List.dropLast_subset _ hqm))).1
    refine ⟨r, ?_⟩
    simp only [combine_psbts]
    rw [hgl]
    exact hr
  · rcases rest with _ | ⟨x, more⟩
    · exact ⟨p, rfl⟩
    · obtain ⟨r, hr⟩ := (combineFold_ok (allSigs (p :: x :: more)) hS t
          (x :: more) p (hSmem p (by simp)).1 (hSmem p (by simp)).2
          (fun q hqm => hSmem q (List.mem_cons_of_mem _ hqm))).2
      refine ⟨r, ?_⟩
      unfold core_combine_psbts
      rw [if_pos (by simp only [List.length_cons]; omega)]
      exact hr

/-- Witness for the amended C10 theorem at two compatible psbts over the
same transaction. -/
theorem combine_psbts_amended_witness :
    (∃ r, combine_psbts [⟨1, [(0, 5)]⟩, ⟨1, [(0, 5), (1, 6)]⟩] = .ok r) ∧
    ∃ r, core_combine_psbts [⟨1, [(0, 5)]⟩, ⟨1, [(0, 5), (1, 6)]⟩] = .ok r :=
  combine_psbts_amended.2.2 [⟨1, [(0, 5)]⟩, ⟨1, [(0, 5), (1, 6)]⟩] 1
    (by decide) (by decide) (by unfold consistentSigs; decide)


set_option maxRecDepth 60000 in
theorem numsChunk0 : numsCheckRange 0 32 = true := by rfl

set_option maxRecDepth 60000 in
theorem numsChunk1 : numsCheckRange 32 64 = true := by rfl

set_option maxRecDepth 60000 in
theorem numsChunk2 : numsCheckRange 64 96 = true := by rfl

set_option maxRecDepth 60000 in
theorem numsChunk3 : numsCheckRange 96 128 = true := by rfl

set_option maxRecDepth 60000 in
theorem numsChunk4 : numsCheckRange 128 160 = true := by rfl

set_option maxRecDepth 60000 in
theorem numsChunk5 : numsCheckRange 160 192 = true := by rfl

set_option maxRecDepth 60000 in
theorem numsChunk6 : numsCheckRange 192 224 = true := by rfl

set_option maxRecDepth 60000 in
theorem numsChunk7 : numsCheckRange 224 256 = true := by rfl

/-- Claim C6: for every index in [0,255] the NUMS basepoint derived by
get_nums (hashing the serialized generator, the index byte and a counter
byte, and taking the first valid 0x02-prefixed compressed point) equals the
corresponding entry of the literal table PRECOMPUTEDNUMS. -/
theorem nums_table_correct :
    ∀ i : Fin 256, get_nums i.val = .ok (PRECOMPUTEDNUMS.get! i.val) := by
  intro i
  have h := i.isLt
  by_cases h0 : i.val < 32
  · exact numsCheckRange_sound numsChunk0 _ (by omega) h0
  · by_cases h1 : i.val < 64
    · exact numsCheckRange_sound numsChunk1 _ (by omega) h1
    · by_cases h2 : i.val < 96
      · exact numsCheckRange_sound numsChunk2 _ (by omega) h2
      · by_cases h3 : i.val < 128
        · exact numsCheckRange_sound numsChunk3 _ (by omega) h3
        · by_cases h4 : i.val < 160
          · exact numsCheckRange_sound numsChunk4 _ (by omega) h4
          · by_cases h5 : i.val < 192
            · exact numsCheckRange_sound numsChunk5 _ (by omega) h5
            · by_cases h6 : i.val < 224
              · exact numsCheckRange_sound numsChunk6 _ (by omega) h6
              · exact numsCheckRange_sound numsChunk7 _ (by omega) (by omega)

end Nostrdizer
